import Mathlib

set_option maxHeartbeats 1000000

/-!
# Verification of the xc-mcp caching and persistence subsystem

Shallow embedding, in Lean 4, of the stateful caching core of the xc-mcp
repository: the persistence manager's typed serialization
(`src/utils/persistence.ts`), the ephemeral response cache
(`src/utils/response-cache.ts`), the simulator state cache
(`src/state/simulator-cache.ts`) and the project state cache
(`src/state/project-cache.ts`).

Modelling conventions:
* `Date` timestamps are epoch milliseconds as `Nat` (JavaScript's
  `now - ts > maxAge` comparison with a timestamp in the future is false in
  both semantics: in JS the difference is negative, here truncated `Nat`
  subtraction yields `0`).
* JavaScript numbers used in arithmetic (build durations, averages) are
  modelled as `ℚ`; counts and sizes as `Nat`.
* `Map` objects are association lists in insertion order; `Map.set` of a
  fresh key appends, of a present key updates in place, matching the
  iteration-order semantics of JS `Map`.
* `Array.prototype.sort` is stable (required by ES2019); it is modelled with
  `List.insertionSort`, which is stable for a total preorder.
* I/O (file reads, `fs.stat`, subprocess execution) is passed in explicitly
  as oracle arguments; a fallible native call is an `Except`/`Option`.
-/

namespace XcMcp

/-! ## JavaScript runtime values and JSON documents

`JsValue` is the fragment of the JS value universe that the persistence layer
serializes: JSON primitives plus `Map` objects and `Date` objects.  A `Date`
is carried as its ISO-8601 rendering (the exact string `toISOString` would
produce); `Date.prototype.toJSON` returns that string and `new Date(iso)`
recovers the same instant, so this carries precisely the information the
round-trip moves around.  `JsonValue` is a parsed JSON document: what a JSON
text denotes after `JSON.parse`, before any reviver runs.  Object field lists
are assumed duplicate-free (as all objects produced by this code are);
property lookup takes the first occurrence. -/

inductive JsValue where
  | null
  | bool (b : Bool)
  | num (n : Int)
  | str (s : String)
  | arr (elems : List JsValue)
  | obj (fields : List (String × JsValue))
  | map (entries : List (JsValue × JsValue))
  | date (iso : String)
deriving Repr, Inhabited

inductive JsonValue where
  | null
  | bool (b : Bool)
  | num (n : Int)
  | str (s : String)
  | arr (elems : List JsonValue)
  | obj (fields : List (String × JsonValue))
deriving Repr, Inhabited

namespace PersistenceManager

/-- Schema version constant of `PersistenceManager` (`this.schemaVersion`). -/
def schemaVersion : String := "1.0.0"

mutual

/-- `PersistenceManager.serialize`: `JSON.stringify(data, replacer, 2)`.

Per ECMA-262 `SerializeJSONProperty`, for each property `JSON.stringify`
first calls the value's `toJSON` method (step 2) and only then the replacer
(step 3).  A `Date` has `toJSON` (returning its ISO string), a `Map` does
not.  Consequently the replacer of the source receives, for a `Date`, the
ISO *string*, so its `value instanceof Date` branch never fires and a `Date`
is emitted as a bare string with no `__type` tag; the `value instanceof Map`
branch does fire, and the tagged replacement object's parts are then
serialized recursively. -/
def serialize : JsValue → JsonValue
  | .null => .null
  | .bool b => .bool b
  | .num n => .num n
  | .str s => .str s
  | .date iso => .str iso
  | .arr xs => .arr (serializeList xs)
  | .obj fs => .obj (serializeFields fs)
  | .map es =>
      .obj [("__type", .str "Map"), ("entries", .arr (serializePairs es))]

/-- Elementwise serialization of an array's elements. -/
def serializeList : List JsValue → List JsonValue
  | [] => []
  | x :: xs => serialize x :: serializeList xs

/-- Fieldwise serialization of an object's properties. -/
def serializeFields : List (String × JsValue) → List (String × JsonValue)
  | [] => []
  | (k, v) :: fs => (k, serialize v) :: serializeFields fs

/-- Serialization of `Array.from(map.entries())`: a list of two-element
arrays. -/
def serializePairs : List (JsValue × JsValue) → List JsonValue
  | [] => []
  | (k, v) :: es => .arr [serialize k, serialize v] :: serializePairs es

end

/-- First-occurrence field lookup on a revived object (property access on a
duplicate-free field list). -/
def lookupField (fs : List (String × JsValue)) (k : String) : Option JsValue :=
  (fs.find? (fun p => p.1 == k)).map (·.2)

/-- One item of `new Map(entries)`: the constructor reads `item[0]` and
`item[1]`, ignoring further elements.  Anything that is not an array of at
least two elements makes the `Map` constructor (or the subsequent use)
misbehave; we model that as a failure (`none`), which the caller's
`try`/`catch` turns into "absent".  The serializer only ever emits
two-element arrays here. -/
def jsPairOfItem : JsValue → Option (JsValue × JsValue)
  | .arr (k :: v :: _) => some (k, v)
  | _ => none

/-- The reviver of `PersistenceManager.deserialize`, applied to an object
whose fields have already been revived (JSON.parse revives bottom-up):
a `{__type:'Map', entries}` object becomes a `Map`, a
`{__type:'Date', value}` object becomes a `Date`, anything else is left
as-is.  `new Map(undefined)` (missing `entries`) is the empty map. -/
def reviveObject (fs : List (String × JsValue)) : Option JsValue :=
  match lookupField fs "__type" with
  | some (.str "Map") =>
    match lookupField fs "entries" with
    | none => some (.map [])
    | some (.arr items) => (items.mapM jsPairOfItem).map JsValue.map
    | some _ => none
  | some (.str "Date") =>
    match lookupField fs "value" with
    | some (.str s) => some (.date s)
    | _ => none
  | _ => some (.obj fs)

mutual

/-- `PersistenceManager.deserialize`: `JSON.parse(json, reviver)`, revivers
running bottom-up.  A failure (`none`) models a thrown `TypeError`, which
`loadState` catches. -/
def deserialize : JsonValue → Option JsValue
  | .null => some .null
  | .bool b => some (.bool b)
  | .num n => some (.num n)
  | .str s => some (.str s)
  | .arr xs => (deserializeList xs).map JsValue.arr
  | .obj fs =>
      match deserializeFields fs with
      | none => none
      | some fs' => reviveObject fs'

/-- Elementwise deserialization of an array. -/
def deserializeList : List JsonValue → Option (List JsValue)
  | [] => some []
  | x :: xs =>
      match deserialize x, deserializeList xs with
      | some v, some vs => some (v :: vs)
      | _, _ => none

/-- Fieldwise deserialization of an object. -/
def deserializeFields :
    List (String × JsonValue) → Option (List (String × JsValue))
  | [] => some []
  | (k, v) :: fs =>
      match deserialize v, deserializeFields fs with
      | some v', some fs' => some ((k, v') :: fs')
      | _, _ => none

end

/-- Property access `x.k` on an arbitrary value: defined (`some`) only on
objects.  On a string, array, `Map` or `Date` the named properties used by
`loadState` are absent (`undefined`); on `null` the access throws, which the
surrounding `try`/`catch` also turns into the "absent" outcome, so `none` is
a faithful observation in every use below. -/
def getProp : JsValue → String → Option JsValue
  | .obj fs, k => lookupField fs k
  | _, _ => none

/-- `typeof data === 'object'` for a non-`null`, truthy value: plain
objects, arrays, `Map`s and `Date`s qualify. -/
def isJsObjectLike : JsValue → Bool
  | .obj _ => true
  | .arr _ => true
  | .map _ => true
  | .date _ => true
  | _ => false

/-- `x === null || typeof x === 'object'` on a property that may be absent
(`undefined` fails both tests). -/
def isNullOrObjectProp : Option JsValue → Bool
  | some .null => true
  | some v => isJsObjectLike v
  | none => false

/-- `Array.isArray` on a property that may be absent. -/
def isArrayProp : Option JsValue → Bool
  | some (.arr _) => true
  | _ => false

/-- `PersistenceManager.validateCacheData`. -/
def validateCacheData (cacheType : String) (data : JsValue) : Bool :=
  if !isJsObjectLike data then false
  else if cacheType = "simulators" then
    isNullOrObjectProp (getProp data "cache") &&
      isArrayProp (getProp data "preferredByProject") &&
      isArrayProp (getProp data "lastUsed")
  else if cacheType = "projects" then
    isArrayProp (getProp data "projectConfigs") &&
      isArrayProp (getProp data "buildHistory") &&
      isArrayProp (getProp data "dependencyCache")
  else if cacheType = "responses" then true
  else true

/-- The enabled/directory state of a `PersistenceManager` instance. -/
structure PMState where
  enabled : Bool
  cacheDir : Option String
deriving Repr, DecidableEq

/-- Outcome of `fs.readFile` on the cache file. -/
inductive FsError where
  | enoent
  | other (msg : String)
deriving Repr, DecidableEq

/-- `PersistenceManager.loadState`.  The file read is passed in as an
oracle: `.error` is a thrown filesystem error, `.ok none` a file whose text
`JSON.parse` rejects, `.ok (some doc)` a file parsing to the document `doc`.
Every failure inside the source's `try` block (read error, parse error,
reviver error, schema-version mismatch, failed structural validation) is
caught or short-circuited to `null`; the function is total and never
raises. -/
def loadState (pm : PMState) (cacheType : String)
    (readResult : Except FsError (Option JsonValue)) : Option JsValue :=
  if !pm.enabled || pm.cacheDir.isNone then none
  else
    match readResult with
    | .error _ => none
    | .ok none => none
    | .ok (some doc) =>
      match deserialize doc with
      | none => none
      | some envelope =>
        match getProp envelope "version" with
        | some (.str v) =>
          if v = schemaVersion then
            match getProp envelope "data" with
            | none => none
            | some data =>
                if validateCacheData cacheType data then some data else none
          else none
        | _ => none

/-- The document `doSaveState` writes for payload `data`: the envelope
`{version, timestamp: new Date(), data}` run through `serialize`.  (The
atomic temp-file-and-rename and the cooperative lock only affect *where* the
bytes land, not their content.) -/
def saveContent (nowIso : String) (data : JsValue) : JsonValue :=
  serialize (.obj
    [("version", .str schemaVersion),
     ("timestamp", .date nowIso),
     ("data", data)])

/-- `saveState(type, payload)` followed by `loadState(type)` reading back
the file just written. -/
def saveLoadRoundTrip (pm : PMState) (cacheType : String) (nowIso : String)
    (data : JsValue) : Option JsValue :=
  loadState pm cacheType (.ok (some (saveContent nowIso data)))

end PersistenceManager

/-! ## Response cache (`src/utils/response-cache.ts`)

The cache is a JS `Map` keyed by freshly generated UUIDs; it is modelled as
a list of entries in insertion order (the iteration order of a JS `Map`).
`randomUUID` is modelled by passing each `store` call its generated id
explicitly; the genuine ids are fresh, which becomes a hypothesis where it
matters.  `Array.prototype.sort` is stable, so the comparator
`a.timestamp - b.timestamp` is modelled by the stable `List.insertionSort`
under the total preorder `tsLe`. -/

namespace ResponseCache

/-- `CachedResponse` (metadata entries modelled as string pairs). -/
structure CachedResponse where
  id : Nat
  tool : String
  timestamp : Nat
  fullOutput : String
  stderr : String
  exitCode : Int
  command : String
  metadata : List (String × String)
deriving Repr, DecidableEq

/-- The fields of `Omit<CachedResponse, 'id' | 'timestamp'>` that `store`
receives. -/
structure StoreInput where
  tool : String
  fullOutput : String
  stderr : String
  exitCode : Int
  command : String
  metadata : List (String × String)
deriving Repr, DecidableEq

/-- `maxAge = 1000 * 60 * 30` (30 minutes, in ms). -/
def maxAge : Nat := 1000 * 60 * 30

/-- `maxEntries = 100`. -/
def maxEntries : Nat := 100

/-- The entry `store` builds: `{...data, id, timestamp: new Date()}`. -/
def mkEntry (data : StoreInput) (id : Nat) (now : Nat) : CachedResponse :=
  { id := id
    tool := data.tool
    timestamp := now
    fullOutput := data.fullOutput
    stderr := data.stderr
    exitCode := data.exitCode
    command := data.command
    metadata := data.metadata }

/-- The sort key of `cleanup`'s comparator: ascending timestamp.  A total
preorder, under which the stable sort reproduces JS `Array.prototype.sort`
with comparator `a.timestamp - b.timestamp`. -/
def tsLe (a b : CachedResponse) : Prop := a.timestamp ≤ b.timestamp

instance : DecidableRel tsLe := fun a b =>
  inferInstanceAs (Decidable (a.timestamp ≤ b.timestamp))

/-- `Map.set`: overwrite in place if the key is present, else append. -/
def mapSet (cache : List CachedResponse) (c : CachedResponse) :
    List CachedResponse :=
  if cache.any (fun d => d.id == c.id) then
    cache.map (fun d => if d.id == c.id then c else d)
  else cache ++ [c]

/-- `Date.now() - cached.timestamp.getTime() > this.maxAge`. -/
def isExpired (now : Nat) (c : CachedResponse) : Bool :=
  decide (now - c.timestamp > maxAge)

/-- Second phase of `ResponseCache.cleanup`: if the swept cache still
exceeds capacity, delete the ids of the first `size - maxEntries` entries
of the ascending-by-timestamp stable sort (the oldest ones). -/
def removeOverCapacity (swept : List CachedResponse) :
    List CachedResponse :=
  if swept.length > maxEntries then
    swept.filter (fun c =>
      !(((swept.insertionSort tsLe).take (swept.length - maxEntries)).any
        (fun r => r.id == c.id)))
  else swept

/-- `ResponseCache.cleanup`: drop expired entries, then, if still over
capacity, drop the oldest-by-timestamp entries until at capacity. -/
def cleanup (now : Nat) (cache : List CachedResponse) :
    List CachedResponse :=
  removeOverCapacity (cache.filter (fun c => !isExpired now c))

/-- `ResponseCache.store`: build the entry, insert, sweep, return the id. -/
def store (now : Nat) (id : Nat) (data : StoreInput)
    (cache : List CachedResponse) : Nat × List CachedResponse :=
  let cached := mkEntry data id now
  (id, cleanup now (mapSet cache cached))

/-- `ResponseCache.get`: lazily treats an over-age entry as missing and
deletes it. -/
def get (now : Nat) (id : Nat) (cache : List CachedResponse) :
    Option CachedResponse × List CachedResponse :=
  match cache.find? (fun c => c.id == id) with
  | none => (none, cache)
  | some c =>
    if now - c.timestamp > maxAge then
      (none, cache.filter (fun d => !(d.id == id)))
    else (some c, cache)

/-- A sequence of `store` calls: each operation is
`(time of call, generated id, input)`. -/
def runStores : List (Nat × Nat × StoreInput) → List CachedResponse →
    List CachedResponse
  | [], cache => cache
  | (t, i, d) :: ops, cache => runStores ops (store t i d cache).2

/-- The entries a sequence of operations stores, in store order. -/
def opsEntries (ops : List (Nat × Nat × StoreInput)) : List CachedResponse :=
  ops.map (fun o => mkEntry o.2.2 o.2.1 o.1)

/-- A fixed store input used by the concrete witnesses below. -/
def sampleInput : StoreInput := ⟨"build", "out", "", 0, "cmd", []⟩

/-- 101 store operations at nondecreasing times with pairwise-distinct
fresh ids: more stores than the cache's capacity. -/
def manyOps : List (Nat × Nat × StoreInput) :=
  (List.range 101).map (fun n => (n, n, sampleInput))

end ResponseCache

/-! ## JS `Map` as an association list

`Map.get`/`Map.set` on string keys, preserving JS `Map` insertion-order
semantics: `set` of a present key overwrites in place, of a fresh key
appends. -/

/-- `map.get(k)`. -/
def lookupAssoc {β : Type} (m : List (String × β)) (k : String) : Option β :=
  (m.find? (fun p => p.1 == k)).map (fun p => p.2)

/-- `map.set(k, v)`. -/
def setAssoc {β : Type} (m : List (String × β)) (k : String) (v : β) :
    List (String × β) :=
  if m.any (fun p => p.1 == k) then
    m.map (fun p => if p.1 == k then (k, v) else p)
  else m ++ [(k, v)]

/-- `hay.includes(needle)` on JS strings, as character lists. -/
def containsChars (hay needle : List Char) : Bool :=
  hay.tails.any (fun t => needle.isPrefixOf t)

/-- `toLowerCase` of one character, for the ASCII range the compared names
use (simulator names and type filters). -/
def lowerChar (c : Char) : Char :=
  if 65 ≤ c.toNat ∧ c.toNat ≤ 90 then Char.ofNat (c.toNat + 32) else c

/-- `s.toLowerCase()` as a character list. -/
def lowerStr (s : String) : List Char := s.data.map lowerChar

/-- `l.slice(-n)` on a JS array: the last `n` elements. -/
def lastN {α : Type} (n : Nat) (l : List α) : List α :=
  l.drop (l.length - n)

/-! ## Simulator state cache (`src/state/simulator-cache.ts`)

`SimulatorCache` holds an optional merged snapshot plus per-device maps.
The external `simctl list` enumeration is passed in as an oracle
(`Except`: a non-zero exit throws).  Dates are epoch ms (`Nat`), boot
durations are `ℚ`. -/

namespace SimulatorCache

/-- `SimulatorDevice` from `src/types/xcode.ts`. -/
structure SimulatorDevice where
  availability : String
  state : String
  isAvailable : Bool
  name : String
  udid : String
  availabilityError : Option String := none
  deviceTypeIdentifier : String
  logPath : Option String := none
  version : Option String := none
deriving Repr, DecidableEq

/-- `performanceMetrics` of a `SimulatorInfo`. -/
structure PerformanceMetrics where
  avgBootTime : Option ℚ := none
  reliability : Option ℚ := none
deriving Repr, DecidableEq

/-- `SimulatorInfo extends SimulatorDevice` with historical fields. -/
structure SimulatorInfo extends SimulatorDevice where
  lastUsed : Option Nat := none
  bootHistory : List Nat := []
  performanceMetrics : Option PerformanceMetrics := none
deriving Repr, DecidableEq

/-- A cached snapshot (`CachedSimulatorList`).  Runtimes and device types
are opaque to every claim; they are carried as raw strings.  The source's
`preferredByProject` field of the snapshot merely aliases the cache
object's own map, which lives on `SimCacheState` below. -/
structure CachedSimulatorList where
  devices : List (String × List SimulatorInfo)
  runtimes : List String
  devicetypes : List String
  lastUpdated : Nat
deriving Repr, DecidableEq

/-- The values the `bootStates` map can hold, plus the `unknown` default of
`getBootState`. -/
inductive BootState where
  | booted
  | shutdown
  | booting
  | unknown
deriving Repr, DecidableEq

/-- The mutable state of a `SimulatorCache` instance. -/
structure SimCacheState where
  cache : Option CachedSimulatorList
  cacheMaxAge : Nat
  bootStates : List (String × BootState)
  preferredByProject : List (String × String)
  lastUsed : List (String × Nat)
deriving Repr, DecidableEq

/-- The parse of a fresh `simctl list --json` enumeration
(`SimulatorList`). -/
structure SimulatorListData where
  devices : List (String × List SimulatorDevice)
  runtimes : List String
  devicetypes : List String
deriving Repr, DecidableEq

/-- The scan of `findExistingDevice`/`findSimulatorByUdid`: runtime lists
in insertion order, first device with the matching udid. -/
def findInDeviceLists (lists : List (String × List SimulatorInfo))
    (udid : String) : Option SimulatorInfo :=
  match lists with
  | [] => none
  | (_, ds) :: rest =>
    match ds.find? (fun d => d.udid == udid) with
    | some d => some d
    | none => findInDeviceLists rest udid

/-- `SimulatorCache.findExistingDevice`. -/
def findExistingDevice (st : SimCacheState) (udid : String) :
    Option SimulatorInfo :=
  match st.cache with
  | none => none
  | some c => findInDeviceLists c.devices udid

/-- The merge step of `getSimulatorList` for one freshly enumerated
device: `{...device, lastUsed: existingInfo?.lastUsed ||
this.lastUsed.get(udid), bootHistory: existingInfo?.bootHistory || [],
performanceMetrics: existingInfo?.performanceMetrics}`.  A `Date` object
and an array (even an empty one) are truthy, so `||` falls through exactly
when the left side is `undefined`. -/
def enhanceDevice (st : SimCacheState) (device : SimulatorDevice) :
    SimulatorInfo :=
  let existingInfo := findExistingDevice st device.udid
  { toSimulatorDevice := device
    lastUsed :=
      match existingInfo.bind (fun e => e.lastUsed) with
      | some t => some t
      | none => lookupAssoc st.lastUsed device.udid
    bootHistory :=
      match existingInfo with
      | some e => e.bootHistory
      | none => []
    performanceMetrics := existingInfo.bind (fun e => e.performanceMetrics) }

/-- The fresh snapshot `getSimulatorList` builds after a successful
enumeration, with historical data merged in. -/
def refreshedList (st : SimCacheState) (fresh : SimulatorListData)
    (now : Nat) : CachedSimulatorList :=
  { devices := fresh.devices.map (fun p => (p.1, p.2.map (enhanceDevice st)))
    runtimes := fresh.runtimes
    devicetypes := fresh.devicetypes
    lastUpdated := now }

/-- `SimulatorCache.isCacheValid`. -/
def isCacheValid (st : SimCacheState) (now : Nat) : Bool :=
  match st.cache with
  | none => false
  | some c => decide (now - c.lastUpdated < st.cacheMaxAge)

/-- The fetch-and-merge path of `getSimulatorList` (non-zero exit
throws). -/
def fetchAndMerge (st : SimCacheState) (now : Nat)
    (fetchResult : Except String SimulatorListData) :
    Except String (CachedSimulatorList × SimCacheState) :=
  match fetchResult with
  | .error e => .error ("Failed to list simulators: " ++ e)
  | .ok fresh =>
    let merged := refreshedList st fresh now
    .ok (merged, { st with cache := some merged })

/-- `SimulatorCache.getSimulatorList`. -/
def getSimulatorList (st : SimCacheState) (force : Bool) (now : Nat)
    (fetchResult : Except String SimulatorListData) :
    Except String (CachedSimulatorList × SimCacheState) :=
  match st.cache with
  | some c =>
    if !force && isCacheValid st now then .ok (c, st)
    else fetchAndMerge st now fetchResult
  | none => fetchAndMerge st now fetchResult

/-- `device.name.toLowerCase().includes(deviceType.toLowerCase())`, applied
only when a filter is given. -/
def nameMatches (deviceType : Option String) (d : SimulatorInfo) : Bool :=
  match deviceType with
  | none => true
  | some t => containsChars (lowerStr d.name) (lowerStr t)

/-- The runtime-key filter of `getAvailableSimulators`. -/
def runtimeKeyMatches (runtime : Option String) (key : String) : Bool :=
  match runtime with
  | none => true
  | some r => containsChars (lowerStr key) (lowerStr r)

/-- The per-device filter of `getAvailableSimulators`. -/
def availFilter (deviceType : Option String) (d : SimulatorInfo) : Bool :=
  d.isAvailable && nameMatches deviceType d

/-- The devices `getAvailableSimulators` accumulates before sorting. -/
def gatherAvailable (list : CachedSimulatorList)
    (deviceType runtime : Option String) : List SimulatorInfo :=
  (list.devices.filter (fun p => runtimeKeyMatches runtime p.1)).flatMap
    (fun p => p.2.filter (availFilter deviceType))

/-- `a.lastUsed?.getTime() || 0`. -/
def lastUsedKey (d : SimulatorInfo) : Nat :=
  match d.lastUsed with
  | some t => t
  | none => 0

/-- The sort order of `getAvailableSimulators`: most recent `lastUsed`
first, ties by name ascending (`localeCompare` modelled as the string
order). -/
def prefRel (a b : SimulatorInfo) : Prop :=
  lastUsedKey b < lastUsedKey a ∨
    (lastUsedKey a = lastUsedKey b ∧ a.name ≤ b.name)

instance : DecidableRel prefRel := fun a b => by
  unfold prefRel
  infer_instance

/-- `SimulatorCache.getAvailableSimulators` on a snapshot. -/
def getAvailableSimulators (list : CachedSimulatorList)
    (deviceType runtime : Option String) : List SimulatorInfo :=
  (gatherAvailable list deviceType runtime).insertionSort prefRel

/-- The project-preference branch of `getPreferredSimulator`: the pinned
device, if it exists in the snapshot and is still available.  Note the
source applies **no device-type filter** on this branch. -/
def fromProjectPreference (st : SimCacheState) (list : CachedSimulatorList)
    (projectPath : Option String) : Option SimulatorInfo :=
  match projectPath with
  | none => none
  | some p =>
    match lookupAssoc st.preferredByProject p with
    | none => none
    | some udid =>
      match findInDeviceLists list.devices udid with
      | some preferred =>
        if preferred.isAvailable then some preferred else none
      | none => none

/-- `SimulatorCache.getPreferredSimulator`, evaluated against the snapshot
`list` that `getSimulatorList` returns (both the pinned lookup and the
fallback read the same snapshot). -/
def getPreferredSimulator (st : SimCacheState) (list : CachedSimulatorList)
    (projectPath deviceType : Option String) : Option SimulatorInfo :=
  match fromProjectPreference st list projectPath with
  | some d => some d
  | none => (getAvailableSimulators list deviceType none).head?

/-- Update the first device with the given udid in one runtime list. -/
def updateFirstInList (ds : List SimulatorInfo) (udid : String)
    (f : SimulatorInfo → SimulatorInfo) : List SimulatorInfo :=
  match ds with
  | [] => []
  | d :: rest =>
    if d.udid == udid then f d :: rest
    else d :: updateFirstInList rest udid f

/-- The `for … find … break` scan of `recordBootEvent`: update the first
matching device of the first runtime list containing the udid, leaving
everything else untouched. -/
def updateFirstDevice (lists : List (String × List SimulatorInfo))
    (udid : String) (f : SimulatorInfo → SimulatorInfo) :
    List (String × List SimulatorInfo) :=
  match lists with
  | [] => []
  | (rt, ds) :: rest =>
    if ds.any (fun d => d.udid == udid) then
      (rt, updateFirstInList ds udid f) :: rest
    else (rt, ds) :: updateFirstDevice rest udid f

/-- The per-device mutation of a successful `recordBootEvent`: push the
boot timestamp; then, only under `if (duration)` — i.e. a present,
non-zero duration — blend the average boot time and recompute
reliability from the last 10 boots. -/
def applyBootUpdate (now : Nat) (duration : Option ℚ) (d : SimulatorInfo) :
    SimulatorInfo :=
  let d1 := { d with bootHistory := d.bootHistory ++ [now] }
  match duration with
  | some dur =>
    if dur ≠ 0 then
      let metrics := d1.performanceMetrics.getD
        { avgBootTime := some 0, reliability := some 1 }
      let bootTimes := lastN 10 d1.bootHistory
      let currentAvg := metrics.avgBootTime.getD 0
      let avg := if bootTimes.length > 1 then (currentAvg + dur) / 2 else dur
      let newMetrics : PerformanceMetrics :=
        { avgBootTime := some avg
          reliability := some (min 1 ((bootTimes.length : ℚ) / 10)) }
      { d1 with performanceMetrics := some newMetrics }
    else d1
  | none => d1

/-- `SimulatorCache.recordBootEvent`. -/
def recordBootEvent (st : SimCacheState) (udid : String) (success : Bool)
    (duration : Option ℚ) (now : Nat) : SimCacheState :=
  let bs := setAssoc st.bootStates udid
    (if success then BootState.booted else BootState.shutdown)
  let st1 := { st with bootStates := bs }
  match st1.cache, success with
  | some c, true =>
    let ds := updateFirstDevice c.devices udid (applyBootUpdate now duration)
    let c1 := { c with devices := ds }
    { st1 with cache := some c1 }
  | _, _ => st1

/-- An available iPad record with history, used by concrete witnesses and
counterexamples. -/
def ipadInfo : SimulatorInfo :=
  { availability := "(available)", state := "Shutdown", isAvailable := true,
    name := "iPad Air", udid := "UDID-IPAD",
    deviceTypeIdentifier := "com.apple.ipad-air",
    lastUsed := some 50, bootHistory := [], performanceMetrics := none }

/-- An available iPhone record, more recently used than the iPad. -/
def iphoneInfo : SimulatorInfo :=
  { availability := "(available)", state := "Shutdown", isAvailable := true,
    name := "iPhone 15", udid := "UDID-IPHONE",
    deviceTypeIdentifier := "com.apple.iphone-15",
    lastUsed := some 100, bootHistory := [], performanceMetrics := none }

/-- A snapshot holding both devices under one runtime. -/
def pinnedList : CachedSimulatorList :=
  { devices := [("iOS 17", [ipadInfo, iphoneInfo])],
    runtimes := ["iOS 17"], devicetypes := [], lastUpdated := 0 }

/-- A cache state whose project preference pins the iPad. -/
def pinnedState : SimCacheState :=
  { cache := some pinnedList, cacheMaxAge := 3600000, bootStates := [],
    preferredByProject := [("/proj/App.xcodeproj", "UDID-IPAD")],
    lastUsed := [] }

/-- A cache state with no snapshot. -/
def emptySimState : SimCacheState :=
  { cache := none, cacheMaxAge := 3600000, bootStates := [],
    preferredByProject := [], lastUsed := [] }

/-- A freshly enumerated iPad: same udid, freshly reported state. -/
def ipadFreshDevice : SimulatorDevice :=
  { availability := "(available)", state := "Booted", isAvailable := true,
    name := "iPad Air", udid := "UDID-IPAD",
    deviceTypeIdentifier := "com.apple.ipad-air" }

/-- A fresh enumeration containing only the iPad. -/
def freshEnumeration : SimulatorListData :=
  { devices := [("iOS 17", [ipadFreshDevice])], runtimes := ["iOS 17"],
    devicetypes := [] }

instance : IsTotal SimulatorInfo prefRel := ⟨by
  intro a b
  unfold prefRel
  rcases Nat.lt_trichotomy (lastUsedKey a) (lastUsedKey b) with h | h | h
  · exact Or.inr (Or.inl h)
  · rcases le_total a.name b.name with hn | hn
    · exact Or.inl (Or.inr ⟨h, hn⟩)
    · exact Or.inr (Or.inr ⟨h.symm, hn⟩)
  · exact Or.inl (Or.inl h)⟩

instance : IsTrans SimulatorInfo prefRel := ⟨by
  intro a b c hab hbc
  unfold prefRel at hab hbc ⊢
  rcases hab with h1 | h1 <;> rcases hbc with h2 | h2
  · exact Or.inl (Nat.lt_trans h2 h1)
  · exact Or.inl (by rw [← h2.1]; exact h1)
  · exact Or.inl (by rw [h1.1]; exact h2)
  · exact Or.inr ⟨h1.1.trans h2.1, le_trans h1.2 h2.2⟩⟩

end SimulatorCache

/-! ## Project state cache (`src/state/project-cache.ts`)

`ProjectCache` keys three JS `Map`s by normalized project path.  `fs.stat`
(file modification time, epoch ms) and the external `xcodebuild -list`
enumeration are oracles; either may throw (`Except`). -/

namespace ProjectCache

/-- `BuildConfig`. -/
structure BuildConfig where
  scheme : String
  configuration : String
  destination : Option String := none
  sdk : Option String := none
  derivedDataPath : Option String := none
deriving Repr, DecidableEq

/-- The fields of `Omit<BuildMetrics, 'config'>` that `recordBuildResult`
receives. -/
structure BuildMetricsInput where
  timestamp : Nat
  success : Bool
  duration : Option ℚ := none
  errorCount : Nat
  warningCount : Nat
  buildSizeBytes : Nat
deriving Repr, DecidableEq

/-- `BuildMetrics`. -/
structure BuildMetrics extends BuildMetricsInput where
  config : BuildConfig
deriving Repr, DecidableEq

/-- The `project` section of an `xcodebuild -list -json` parse
(`XcodeProject.project`). -/
structure ProjectSection where
  configurations : List String := []
  name : String
  schemes : List String
  targets : List String := []
deriving Repr, DecidableEq

/-- The `workspace` section (`XcodeProject.workspace`). -/
structure WorkspaceSection where
  name : String
  schemes : List String
deriving Repr, DecidableEq

/-- `XcodeProject` (the `information` block is never consulted by the
cache and is omitted). -/
structure XcodeProject where
  project : Option ProjectSection := none
  workspace : Option WorkspaceSection := none
deriving Repr, DecidableEq

/-- `ProjectInfo`. -/
structure ProjectInfo where
  path : String
  lastModified : Nat
  projectData : XcodeProject
  preferredScheme : Option String := none
  lastSuccessfulConfig : Option BuildConfig := none
deriving Repr, DecidableEq

/-- `DependencyInfo` (lock-file payloads carried as opaque strings). -/
structure DependencyInfo where
  lastChecked : Nat
  packageResolved : Option String := none
  podfileLock : Option String := none
  carthageResolved : Option String := none
deriving Repr, DecidableEq

/-- The mutable state of a `ProjectCache` instance. -/
structure ProjCacheState where
  projectConfigs : List (String × ProjectInfo)
  buildHistory : List (String × List BuildMetrics)
  dependencyCache : List (String × DependencyInfo)
  cacheMaxAge : Nat
deriving Repr, DecidableEq

/-- `normalizePath`: `path.replace(/\x2f$/, '')` removes one trailing
slash. -/
def normalizePath (path : String) : String :=
  match path.data.getLast? with
  | some c => if c = '/' then String.mk path.data.dropLast else path
  | none => path

/-- `projectData.project?.schemes || projectData.workspace?.schemes || []`:
arrays are truthy (even empty ones), so a present `project` section wins
outright. -/
def schemesOf (pd : XcodeProject) : List String :=
  match pd.project with
  | some pr => pr.schemes
  | none =>
    match pd.workspace with
    | some w => w.schemes
    | none => []

/-- `projectData.project?.name || projectData.workspace?.name`: an empty
string is falsy and falls through. -/
def projectNameOf (pd : XcodeProject) : Option String :=
  match pd.project with
  | some pr =>
    if pr.name ≠ "" then some pr.name
    else pd.workspace.map (fun w => w.name)
  | none => pd.workspace.map (fun w => w.name)

/-- The smart-defaults tail of `getPreferredBuildConfig`: prefer the scheme
equal to the project/workspace name when declared (and the name is truthy),
else the first declared scheme; fixed `Debug` configuration; `none` when no
schemes are declared. -/
def defaultBuildConfig (pd : XcodeProject) : Option BuildConfig :=
  match schemesOf pd with
  | [] => none
  | s0 :: rest =>
    let preferredScheme :=
      match projectNameOf pd with
      | some n => if n ≠ "" ∧ (s0 :: rest).contains n then n else s0
      | none => s0
    some { scheme := preferredScheme, configuration := "Debug" }

/-- `isProjectCacheValid`: the stored mtime equals the live one; a failed
`stat` invalidates. -/
def isProjectCacheValid (statOf : String → Except String Nat)
    (pinfo : ProjectInfo) : Bool :=
  match statOf pinfo.path with
  | .ok m => m == pinfo.lastModified
  | .error _ => false

/-- The refetch path of `getProjectInfo`: `fs.stat` then the external
enumeration (either may throw), carrying `preferredScheme` and
`lastSuccessfulConfig` forward from the prior record. -/
def fetchProjectInfo (st : ProjCacheState)
    (statOf : String → Except String Nat)
    (listOf : String → Except String XcodeProject)
    (projectPath : String) :
    Except String (ProjectInfo × ProjCacheState) :=
  let np := normalizePath projectPath
  let existing := lookupAssoc st.projectConfigs np
  match statOf projectPath with
  | .error e => .error e
  | .ok mtime =>
    match listOf projectPath with
    | .error e => .error ("Failed to get project info: " ++ e)
    | .ok pd =>
      let pinfo : ProjectInfo :=
        { path := np, lastModified := mtime, projectData := pd,
          preferredScheme := existing.bind (fun x => x.preferredScheme),
          lastSuccessfulConfig :=
            existing.bind (fun x => x.lastSuccessfulConfig) }
      let st2 :=
        { st with projectConfigs := setAssoc st.projectConfigs np pinfo }
      .ok (pinfo, st2)

/-- `ProjectCache.getProjectInfo`. -/
def getProjectInfo (st : ProjCacheState)
    (statOf : String → Except String Nat)
    (listOf : String → Except String XcodeProject)
    (projectPath : String) (force : Bool) :
    Except String (ProjectInfo × ProjCacheState) :=
  match lookupAssoc st.projectConfigs (normalizePath projectPath) with
  | some existing =>
    if !force && isProjectCacheValid statOf existing then .ok (existing, st)
    else fetchProjectInfo st statOf listOf projectPath
  | none => fetchProjectInfo st statOf listOf projectPath

/-- `ProjectCache.getPreferredBuildConfig`. -/
def getPreferredBuildConfig (st : ProjCacheState)
    (statOf : String → Except String Nat)
    (listOf : String → Except String XcodeProject)
    (projectPath : String) :
    Except String (Option BuildConfig × ProjCacheState) :=
  match getProjectInfo st statOf listOf projectPath false with
  | .error e => .error e
  | .ok (pinfo, st1) =>
    match pinfo.lastSuccessfulConfig with
    | some c => .ok (some c, st1)
    | none => .ok (defaultBuildConfig pinfo.projectData, st1)

/-- `ProjectCache.recordBuildResult`: append to the 20-entry bounded
history (dropping the oldest on overflow); on success, promote the config
— but only when a `ProjectInfo` entry is already cached for the path. -/
def recordBuildResult (st : ProjCacheState) (projectPath : String)
    (config : BuildConfig) (metrics : BuildMetricsInput) : ProjCacheState :=
  let np := normalizePath projectPath
  let buildMetric : BuildMetrics := { metrics with config := config }
  let history := (lookupAssoc st.buildHistory np).getD [] ++ [buildMetric]
  let history :=
    if history.length > 20 then history.drop (history.length - 20)
    else history
  let st1 := { st with buildHistory := setAssoc st.buildHistory np history }
  if metrics.success then
    match lookupAssoc st1.projectConfigs np with
    | some pinfo =>
      let pinfo1 := { pinfo with
        preferredScheme := some config.scheme
        lastSuccessfulConfig := some config }
      { st1 with projectConfigs := setAssoc st1.projectConfigs np pinfo1 }
    | none => st1
  else st1

/-- `ProjectCache.getBuildHistory`: `history.slice(-limit).reverse()`, most
recent first (`slice(-0)` is `slice(0)`, the whole history). -/
def getBuildHistory (st : ProjCacheState) (projectPath : String)
    (limit : Nat) : List BuildMetrics :=
  let history :=
    (lookupAssoc st.buildHistory (normalizePath projectPath)).getD []
  (if limit = 0 then history else lastN limit history).reverse

/-- The durations of the successful entries of a history, in its order
(most recent first when it comes from `getBuildHistory`): the spec's
"successful durations". -/
def successfulDurations (history : List BuildMetrics) : List ℚ :=
  (history.filter (fun h => h.success)).filterMap (fun h => h.duration)

/-- `mean` of a list of rationals, the spec's `meanOf…`. -/
def mean (l : List ℚ) : ℚ := l.foldl (· + ·) 0 / (l.length : ℚ)

/-- The result record of `getPerformanceTrends`. -/
structure PerformanceTrends where
  avgBuildTime : Option ℚ := none
  successRate : ℚ
  recentErrorCount : Nat
  buildTimeImprovement : Option ℚ := none
deriving Repr, DecidableEq

/-- `ProjectCache.getPerformanceTrends`. -/
def getPerformanceTrends (st : ProjCacheState) (projectPath : String) :
    PerformanceTrends :=
  let history := getBuildHistory st projectPath 20
  if history.isEmpty then
    { successRate := 0, recentErrorCount := 0 }
  else
    let successful := history.filter (fun h => h.success)
    let successRate : ℚ := (successful.length : ℚ) / (history.length : ℚ)
    let durations := successful.filterMap (fun h => h.duration)
    let avgBuildTime : Option ℚ :=
      if durations.length > 0 then
        some (durations.foldl (· + ·) 0 / (durations.length : ℚ))
      else none
    let recentErrorCount :=
      ((history.take 5).map (fun h => h.errorCount)).foldl (· + ·) 0
    let buildTimeImprovement : Option ℚ :=
      if durations.length ≥ 6 then
        let recent := durations.take 3
        let older := (durations.drop 3).take 3
        let recentAvg := recent.foldl (· + ·) 0 / (recent.length : ℚ)
        let olderAvg := older.foldl (· + ·) 0 / (older.length : ℚ)
        some ((olderAvg - recentAvg) / olderAvg * 100)
      else none
    { avgBuildTime := avgBuildTime
      successRate := successRate
      recentErrorCount := recentErrorCount
      buildTimeImprovement := buildTimeImprovement }

/-- The promotion `recordBuildResult` applies to a cached `ProjectInfo` on
a successful build. -/
def promoteConfig (e : ProjectInfo) (cfg : BuildConfig) : ProjectInfo :=
  { e with preferredScheme := some cfg.scheme, lastSuccessfulConfig := some cfg }

/-- A successful-build input record for concrete witnesses. -/
def metricsOk : BuildMetricsInput :=
  { timestamp := 1, success := true, duration := some 10, errorCount := 0,
    warningCount := 0, buildSizeBytes := 5 }

/-- A failed-build input record. -/
def metricsFail : BuildMetricsInput :=
  { timestamp := 2, success := false, duration := none, errorCount := 1,
    warningCount := 0, buildSizeBytes := 5 }

/-- Config A of the claim's scenario. -/
def cfgA : BuildConfig := { scheme := "SchemeA", configuration := "Release" }

/-- Config B of the claim's scenario. -/
def cfgB : BuildConfig := { scheme := "SchemeB", configuration := "Debug" }

/-- A project whose name is among its schemes. -/
def appProject : XcodeProject :=
  { project := some
      { name := "App", schemes := ["App", "AppTests"],
        configurations := ["Debug", "Release"], targets := ["App"] } }

/-- A stat oracle reporting mtime 111 for every path. -/
def statOracle : String → Except String Nat := fun _ => .ok 111

/-- An enumeration oracle returning `appProject` for every path. -/
def listOracle : String → Except String XcodeProject :=
  fun _ => .ok appProject

/-- An empty project-cache state. -/
def emptyProjState : ProjCacheState :=
  { projectConfigs := [], buildHistory := [], dependencyCache := [],
    cacheMaxAge := 3600000 }

/-- A cached `ProjectInfo` for `/p` matching `statOracle`'s mtime. -/
def basePinfo : ProjectInfo :=
  { path := "/p", lastModified := 111, projectData := appProject }

/-- A state in which `/p` already has a cached `ProjectInfo`. -/
def cachedProjState : ProjCacheState :=
  { projectConfigs := [("/p", basePinfo)], buildHistory := [],
    dependencyCache := [], cacheMaxAge := 3600000 }

/-- One successful build entry with the given timestamp and duration. -/
def mkBuild (t : Nat) (dur : ℚ) : BuildMetrics :=
  { timestamp := t, success := true, duration := some dur, errorCount := 0,
    warningCount := 0, buildSizeBytes := 100, config := cfgA }

/-- A state with six successful durations recorded for `/p`. -/
def trendState : ProjCacheState :=
  { projectConfigs := [], dependencyCache := [], cacheMaxAge := 3600000,
    buildHistory := [("/p",
      [mkBuild 1 10, mkBuild 2 20, mkBuild 3 30,
       mkBuild 4 4, mkBuild 5 5, mkBuild 6 6])] }

end ProjectCache

/-! ## Persistence: `enable` and storage-location selection

Filesystem probing is abstracted into an environment: `writable dir` is the
(deterministic) outcome of `ensureDirectoryWritable`'s mkdir +
create/write/delete probe on `dir`, `mkdirTmpOk` the outcome of the final
fallback `fs.mkdir`, and `postSetupOk` whether the post-adoption steps
(`createDirectoryStructure`, `ensureGitignore`, `writeVersionFile`)
succeed. -/

namespace PersistenceManager

/-- The environment `enable`/`determineStorageLocation` observe. -/
structure EnableEnv where
  envCacheDir : Option String
  xdgCacheHome : Option String
  cwd : String
  home : String
  tmp : String
  writable : String → Bool
  mkdirTmpOk : Bool
  postSetupOk : Bool

/-- `path.join(a, b)`. -/
def joinPath (a b : String) : String := a ++ "/" ++ b

/-- JS truthiness on an optional string: `undefined` and `""` are falsy. -/
def truthyStr : Option String → Option String
  | some s => if s = "" then none else some s
  | none => none

/-- The candidate list of `determineStorageLocation`, in priority order —
explicit argument, `XC_MCP_CACHE_DIR`, XDG cache root, project-local
dot-directory, home cache, home dot-directory, temp — with
`.filter(Boolean)` dropping absent and empty entries. -/
def candidates (env : EnableEnv) (userCacheDir : Option String) :
    List String :=
  ([userCacheDir,
    env.envCacheDir,
    (truthyStr env.xdgCacheHome).map (fun x => joinPath x "xc-mcp"),
    some (joinPath env.cwd ".xc-mcp"),
    some (joinPath (joinPath env.home ".cache") "xc-mcp"),
    some (joinPath env.home ".xc-mcp"),
    some (joinPath env.tmp "xc-mcp")].filterMap id).filter
    (fun s => !(s == ""))

/-- `determineStorageLocation`: the first writable candidate; when none is
writable, `mkdir` the temp fallback and return it (a thrown `mkdir` error
propagates to `enable`'s catch). -/
def determineStorageLocation (env : EnableEnv)
    (userCacheDir : Option String) : Except String String :=
  match (candidates env userCacheDir).find? env.writable with
  | some dir => .ok dir
  | none =>
    if env.mkdirTmpOk then .ok (joinPath env.tmp "xc-mcp")
    else .error "mkdir failed"

/-- The result record of `enable`. -/
structure EnableResult where
  success : Bool
  cacheDir : String
  message : Option String
deriving Repr, DecidableEq

/-- `PersistenceManager.enable`.  Note the source order: `this.cacheDir`
and `this.enabled` are assigned **before** the directory-structure setup,
so a failure there reports `success:false` while leaving the manager
enabled — that quirk is preserved (`postSetupOk = false` branch). -/
def enable (pm : PMState) (env : EnableEnv) (userCacheDir : Option String) :
    EnableResult × PMState :=
  match determineStorageLocation env userCacheDir with
  | .error msg =>
    ({ success := false, cacheDir := userCacheDir.getD "unknown",
       message := some ("Failed to enable persistence: " ++ msg) }, pm)
  | .ok dir =>
    if !(env.writable dir) then
      ({ success := false, cacheDir := dir,
         message := some "Directory is not writable" }, pm)
    else
      let pm1 : PMState := { enabled := true, cacheDir := some dir }
      if env.postSetupOk then
        ({ success := true, cacheDir := dir,
           message := some "Persistence enabled successfully" }, pm1)
      else
        ({ success := false, cacheDir := userCacheDir.getD "unknown",
           message := some "Failed to enable persistence: setup error" },
         pm1)

/-- A concrete environment: the explicit argument `/custom` is not
writable, the home cache directory is. -/
def c9env : EnableEnv :=
  { envCacheDir := none, xdgCacheHome := none, cwd := "/work",
    home := "/home/u", tmp := "/tmp",
    writable := fun s => s == "/home/u/.cache/xc-mcp",
    mkdirTmpOk := true, postSetupOk := true }

/-- The same environment with nothing writable at all. -/
def c9envNone : EnableEnv :=
  { envCacheDir := none, xdgCacheHome := none, cwd := "/work",
    home := "/home/u", tmp := "/tmp", writable := fun _ => false,
    mkdirTmpOk := true, postSetupOk := true }

end PersistenceManager

/-! ## Theorems -/

/-- **C1** (code bug): serializing a payload containing a `Date` via
`saveState`'s write path and reading it back via `loadState` does **not**
reconstruct the `Date`: because `JSON.stringify` invokes
`Date.prototype.toJSON` before the replacer, the replacer's
`value instanceof Date` branch never fires, no `{__type:'Date'}` tag is
written, and the value comes back as a plain ISO string.  A `Map` in the
same payload *is* reconstructed as a `Map` (second conjunct), so the tagged
round-trip machinery works exactly for `Map`s and silently degrades for
`Date`s, contradicting both the spec and the serializer's own documentation
and its dead `Date` branch. -/
theorem C1_date_not_reconstructed :
    PersistenceManager.saveLoadRoundTrip ⟨true, some "/tmp/xc-mcp"⟩ "test"
        "2024-06-01T12:00:00.000Z"
        (.obj [("lastUsed", .date "2024-01-01T00:00:00.000Z")])
      = some (.obj [("lastUsed", .str "2024-01-01T00:00:00.000Z")]) ∧
    PersistenceManager.saveLoadRoundTrip ⟨true, some "/tmp/xc-mcp"⟩ "test"
        "2024-06-01T12:00:00.000Z"
        (.obj [("m", .map [(.str "k", .str "v")])])
      = some (.obj [("m", .map [(.str "k", .str "v")])]) :=
  ⟨rfl, rfl⟩

/-- **C2**: `loadState(cacheType)` never raises: it is a total function into
`Option`, and every failure mode enumerated by the claim — persistence
disabled, file missing (`ENOENT`) or any other I/O error, unparsable file,
schema-version mismatch, failed structural validation — yields `none`.
Moreover any `some` result implies persistence was enabled and the payload
passed structural validation for that cache type. -/
theorem C2_loadState_never_raises (pm : PersistenceManager.PMState)
    (cacheType : String)
    (readResult : Except PersistenceManager.FsError (Option JsonValue)) :
    (pm.enabled = false →
      PersistenceManager.loadState pm cacheType readResult = none) ∧
    (∀ e, readResult = .error e →
      PersistenceManager.loadState pm cacheType readResult = none) ∧
    (readResult = .ok none →
      PersistenceManager.loadState pm cacheType readResult = none) ∧
    (∀ doc, readResult = .ok (some doc) →
      PersistenceManager.deserialize doc = none →
      PersistenceManager.loadState pm cacheType readResult = none) ∧
    (∀ doc envelope v, readResult = .ok (some doc) →
      PersistenceManager.deserialize doc = some envelope →
      PersistenceManager.getProp envelope "version" = some (.str v) →
      v ≠ PersistenceManager.schemaVersion →
      PersistenceManager.loadState pm cacheType readResult = none) ∧
    (∀ doc envelope data, readResult = .ok (some doc) →
      PersistenceManager.deserialize doc = some envelope →
      PersistenceManager.getProp envelope "data" = some data →
      PersistenceManager.validateCacheData cacheType data = false →
      PersistenceManager.loadState pm cacheType readResult = none) ∧
    (∀ r, PersistenceManager.loadState pm cacheType readResult = some r →
      pm.enabled = true ∧
      PersistenceManager.validateCacheData cacheType r = true) := by
  refine ⟨?_, ?_, ?_, ?_, ?_, ?_, ?_⟩
  · intro h
    simp [PersistenceManager.loadState, h]
  · intro e h
    subst h
    simp only [PersistenceManager.loadState]
    split <;> rfl
  · intro h
    subst h
    simp only [PersistenceManager.loadState]
    split <;> rfl
  · intro doc h hdes
    subst h
    simp only [PersistenceManager.loadState, hdes]
    split <;> rfl
  · intro doc envelope v h hdes hver hne
    subst h
    simp only [PersistenceManager.loadState, hdes, hver, if_neg hne]
    split <;> rfl
  · intro doc envelope data h hdes hdata hval
    subst h
    simp only [PersistenceManager.loadState, hdes]
    split
    · rfl
    · cases hv : PersistenceManager.getProp envelope "version" with
      | none => simp [hv]
      | some w =>
        cases w <;> simp [hv, hdata, hval]
  · intro r h
    simp only [PersistenceManager.loadState] at h
    split at h
    · exact absurd h (by simp)
    · rename_i hcond
      have hen : pm.enabled = true := by
        revert hcond
        cases pm.enabled <;> simp
      refine ⟨hen, ?_⟩
      split at h
      · exact absurd h (by simp)
      · exact absurd h (by simp)
      · split at h
        · exact absurd h (by simp)
        · split at h
          · split at h
            · split at h
              · exact absurd h (by simp)
              · rename_i hval
                split at h
                · rename_i hval2
                  cases h
                  exact hval2
                · exact absurd h (by simp)
            · exact absurd h (by simp)
          · exact absurd h (by simp)

/-- Witness for C2: concrete evaluations through the theorem — a disabled
manager and a missing file both yield `none`. -/
theorem C2_witness :
    PersistenceManager.loadState ⟨false, none⟩ "simulators" (.ok none)
        = none ∧
    PersistenceManager.loadState ⟨true, some "/tmp/xc-mcp"⟩ "simulators"
        (.error .enoent) = none :=
  ⟨(C2_loadState_never_raises ⟨false, none⟩ "simulators" (.ok none)).1 rfl,
   (C2_loadState_never_raises ⟨true, some "/tmp/xc-mcp"⟩ "simulators"
      (.error .enoent)).2.1 .enoent rfl⟩

namespace ResponseCache

theorem find_eq_some_of_unique {α} (p : α → Bool) {l : List α} {x : α}
    (hx : x ∈ l) (hpx : p x = true) (huniq : ∀ y ∈ l, p y = true → y = x) :
    l.find? p = some x := by
  induction l with
  | nil => cases hx
  | cons a t ih =>
    by_cases ha : p a = true
    · have hax : a = x := huniq a (List.mem_cons_self ..) ha
      subst hax
      simp [List.find?, ha]
    · rw [List.find?_cons_of_neg _ (by simpa using ha)]
      have hx' : x ∈ t := by
        rcases List.mem_cons.mp hx with h | h
        · exact absurd (h ▸ hpx) ha
        · exact h
      exact ih hx' (fun y hy hpy => huniq y (List.mem_cons_of_mem _ hy) hpy)

theorem orderedInsert_append_last {α} (r : α → α → Prop) [DecidableRel r]
    (a x : α) (s : List α) (hax : r a x) :
    (s ++ [x]).orderedInsert r a = s.orderedInsert r a ++ [x] := by
  induction s with
  | nil => simp [List.orderedInsert, hax]
  | cons b t ih =>
    by_cases hab : r a b
    · simp [List.orderedInsert, hab]
    · simp [List.orderedInsert, hab, ih]

theorem insertionSort_append_last {α} (r : α → α → Prop) [DecidableRel r]
    (x : α) (l : List α) (h : ∀ a ∈ l, r a x) :
    (l ++ [x]).insertionSort r = l.insertionSort r ++ [x] := by
  induction l with
  | nil => rfl
  | cons a t ih =>
    show List.orderedInsert r a ((t ++ [x]).insertionSort r)
        = List.orderedInsert r a (t.insertionSort r) ++ [x]
    rw [ih (fun b hb => h b (List.mem_cons_of_mem _ hb))]
    exact orderedInsert_append_last r a x _ (h a (List.mem_cons_self ..))

theorem mapSet_of_fresh (cache : List CachedResponse) (c : CachedResponse)
    (h : ∀ d ∈ cache, d.id ≠ c.id) :
    mapSet cache c = cache ++ [c] := by
  unfold mapSet
  rw [if_neg]
  intro hx
  obtain ⟨d, hd, hdc⟩ := List.any_eq_true.mp hx
  exact h d hd (by simpa using hdc)

/-- The shape of the cache right after `store` with a fresh id: the new
entry sits last, preceded only by entries that were already present. -/
theorem store_shape (cache : List CachedResponse) (now id : Nat)
    (data : StoreInput)
    (hfresh : ∀ c ∈ cache, c.id ≠ id)
    (hts : ∀ c ∈ cache, c.timestamp ≤ now) :
    ∃ L, (store now id data cache).2 = L ++ [mkEntry data id now] ∧
      ∀ c ∈ L, c ∈ cache := by
  have hset : mapSet cache (mkEntry data id now)
      = cache ++ [mkEntry data id now] :=
    mapSet_of_fresh cache _ (by intro d hd; exact hfresh d hd)
  simp only [store, hset, cleanup]
  have hnew_live : isExpired now (mkEntry data id now) = false := by
    simp [isExpired, mkEntry, maxAge]
  rw [List.filter_append]
  simp only [List.filter_cons, List.filter_nil, hnew_live, Bool.not_false,
    if_pos]
  set l' := cache.filter (fun c => !isExpired now c) with hl'
  have hl'mem : ∀ c ∈ l', c ∈ cache := fun c hc => (List.mem_filter.mp hc).1
  unfold removeOverCapacity
  by_cases hlen : (l' ++ [mkEntry data id now]).length > maxEntries
  · rw [if_pos hlen]
    have hsplit : (l' ++ [mkEntry data id now]).insertionSort tsLe
        = l'.insertionSort tsLe ++ [mkEntry data id now] := by
      refine insertionSort_append_last tsLe _ _ ?_
      intro a ha
      exact hts a (hl'mem a ha)
    rw [hsplit]
    have hlen1 : (l' ++ [mkEntry data id now]).length = l'.length + 1 := by
      simp
    have hklen : (l' ++ [mkEntry data id now]).length - maxEntries
        ≤ (l'.insertionSort tsLe).length := by
      rw [List.length_insertionSort, hlen1]
      rw [hlen1] at hlen
      unfold maxEntries at hlen ⊢
      omega
    rw [List.take_append_of_le_length hklen]
    have htrmem : ∀ r ∈ (l'.insertionSort tsLe).take
        ((l' ++ [mkEntry data id now]).length - maxEntries), r ∈ cache := by
      intro r hr
      have h1 : r ∈ l'.insertionSort tsLe := List.mem_of_mem_take hr
      exact hl'mem r ((List.mem_insertionSort tsLe).mp h1)
    have hnewtest : (((l'.insertionSort tsLe).take
        ((l' ++ [mkEntry data id now]).length - maxEntries)).any
        (fun r => r.id == (mkEntry data id now).id)) = false := by
      rw [List.any_eq_false]
      intro r hr
      have : r.id ≠ id := hfresh r (htrmem r hr)
      simpa [mkEntry] using this
    rw [List.filter_append]
    simp only [List.filter_cons, List.filter_nil, hnewtest, Bool.not_false,
      if_pos]
    refine ⟨_, rfl, ?_⟩
    intro c hc
    exact hl'mem c (List.mem_filter.mp hc).1
  · rw [if_neg hlen]
    exact ⟨l', rfl, hl'mem⟩

/-- **C5**: storing an entry with a fresh id at time `now` returns that id;
an immediate `get` returns exactly the stored entry extended with the
generated id and timestamp; and once the entry's age exceeds the 30-minute
TTL, `get` returns `none` and deletes the entry, leaving its id unreachable
in the cache.  Hypotheses: the generated id is fresh (true of `randomUUID`)
and no cached timestamp lies in the future of the call. -/
theorem C5_response_store_get_ttl (cache : List CachedResponse) (now now' id : Nat)
    (data : StoreInput)
    (hfresh : ∀ c ∈ cache, c.id ≠ id)
    (hts : ∀ c ∈ cache, c.timestamp ≤ now) :
    (store now id data cache).1 = id ∧
    (get now id (store now id data cache).2).1 = some (mkEntry data id now) ∧
    (now' - now > maxAge →
      (get now' id (store now id data cache).2).1 = none ∧
      ∀ c ∈ (get now' id (store now id data cache).2).2, c.id ≠ id) := by
  obtain ⟨L, hL, hLmem⟩ := store_shape cache now id data hfresh hts
  have hfind : ((store now id data cache).2).find? (fun c => c.id == id)
      = some (mkEntry data id now) := by
    rw [hL]
    apply find_eq_some_of_unique
    · exact List.mem_append_right _ (by simp)
    · simp [mkEntry]
    · intro y hy hpy
      rcases List.mem_append.mp hy with h | h
      · exact absurd (by simpa using hpy) (hfresh y (hLmem y h))
      · simpa using h
  have hlive : ¬(now - (mkEntry data id now).timestamp > maxAge) := by
    simp [mkEntry]
  refine ⟨rfl, ?_, ?_⟩
  · simp only [get, hfind]
    rw [if_neg hlive]
  · intro hexp
    have hdead : (now' - (mkEntry data id now).timestamp > maxAge) := by
      simpa [mkEntry] using hexp
    constructor
    · simp only [get, hfind]
      rw [if_pos hdead]
    · intro c hc
      simp only [get, hfind] at hc
      rw [if_pos hdead] at hc
      have := List.mem_filter.mp hc
      simpa using this.2

theorem suffix_append_right {α} {l₁ l₂ : List α} (h : l₁ <:+ l₂)
    (l : List α) : l₁ ++ l <:+ l₂ ++ l := by
  obtain ⟨t, ht⟩ := h
  exact ⟨t, by rw [← ht, List.append_assoc]⟩

theorem filter_suffix_of_pairwise {α} (p : α → Bool) (l : List α)
    (h : l.Pairwise (fun a b => p a = true → p b = true)) :
    l.filter p <:+ l := by
  induction l with
  | nil => simp
  | cons a t ih =>
    rw [List.filter_cons]
    rcases List.pairwise_cons.mp h with ⟨ha, ht⟩
    by_cases hpa : p a = true
    · rw [if_pos hpa, List.filter_eq_self.mpr (fun b hb => ha b hb hpa)]
    · rw [if_neg hpa]
      exact (ih ht).trans (List.suffix_cons a t)

theorem filter_not_mem_take_eq_drop :
    ∀ (l : List CachedResponse) (k : Nat),
      (l.map (fun c => c.id)).Nodup →
      l.filter (fun c => !((l.take k).any (fun r => r.id == c.id)))
        = l.drop k := by
  intro l
  induction l with
  | nil => intro k _; simp
  | cons a t ih =>
    intro k hnodup
    cases k with
    | zero => simp
    | succ n =>
      rw [List.take_succ_cons, List.drop_succ_cons, List.filter_cons]
      have ha : ((a :: t.take n).any (fun r => r.id == a.id)) = true := by
        simp
      rw [ha]
      simp only [Bool.not_true, Bool.false_eq_true, if_false]
      rw [List.map_cons] at hnodup
      have hmemid : a.id ∉ t.map (fun c => c.id) :=
        (List.nodup_cons.mp hnodup).1
      have hcongr : ∀ c ∈ t,
          (!((a :: t.take n).any (fun r => r.id == c.id)))
            = (!((t.take n).any (fun r => r.id == c.id))) := by
        intro c hc
        have hne : a.id ≠ c.id := by
          intro he
          exact hmemid (he ▸ List.mem_map_of_mem (fun c => c.id) hc)
        have hbeq : (a.id == c.id) = false := beq_eq_false_iff_ne.mpr hne
        simp [List.any_cons, hbeq]
      rw [List.filter_congr hcongr]
      exact ih n (List.nodup_cons.mp hnodup).2

theorem removeOverCapacity_eq_drop (swept : List CachedResponse)
    (hsorted : swept.Sorted tsLe)
    (hnodup : (swept.map (fun c => c.id)).Nodup) :
    removeOverCapacity swept = swept.drop (swept.length - maxEntries) := by
  unfold removeOverCapacity
  by_cases h : swept.length > maxEntries
  · rw [if_pos h, hsorted.insertionSort_eq]
    exact filter_not_mem_take_eq_drop swept _ hnodup
  · rw [if_neg h]
    have h0 : swept.length - maxEntries = 0 := by omega
    rw [h0, List.drop_zero]

theorem sweep_suffix (now : Nat) (l : List CachedResponse)
    (hsorted : l.Sorted tsLe) :
    l.filter (fun c => !isExpired now c) <:+ l := by
  apply filter_suffix_of_pairwise
  refine hsorted.imp ?_
  intro a b hab hpa
  simp only [isExpired, Bool.not_eq_true', decide_eq_false_iff_not,
    not_lt] at hpa ⊢
  exact le_trans (Nat.sub_le_sub_left hab now) hpa

theorem store_step (cache : List CachedResponse) (now id : Nat)
    (data : StoreInput)
    (hsorted : (cache ++ [mkEntry data id now]).Sorted tsLe)
    (hnodup : ((cache ++ [mkEntry data id now]).map (fun c => c.id)).Nodup)
    (hfresh : ∀ c ∈ cache, c.id ≠ id) :
    (store now id data cache).2 <:+ cache ++ [mkEntry data id now] ∧
    (store now id data cache).2.length ≤ maxEntries ∧
    (store now id data cache).2.Sorted tsLe ∧
    ((store now id data cache).2.map (fun c => c.id)).Nodup := by
  have hset : mapSet cache (mkEntry data id now)
      = cache ++ [mkEntry data id now] :=
    mapSet_of_fresh cache _ hfresh
  simp only [store, cleanup, hset]
  have h1 : (cache ++ [mkEntry data id now]).filter
      (fun c => !isExpired now c) <:+ cache ++ [mkEntry data id now] :=
    sweep_suffix now _ hsorted
  have hsorted1 : ((cache ++ [mkEntry data id now]).filter
      (fun c => !isExpired now c)).Sorted tsLe :=
    hsorted.sublist (List.filter_sublist _)
  have hnodup1 : (((cache ++ [mkEntry data id now]).filter
      (fun c => !isExpired now c)).map (fun c => c.id)).Nodup :=
    (((List.filter_sublist _).map _)).nodup hnodup
  rw [removeOverCapacity_eq_drop _ hsorted1 hnodup1]
  refine ⟨(List.drop_suffix _ _).trans h1, ?_, ?_, ?_⟩
  · rw [List.length_drop]
    unfold maxEntries
    omega
  · exact hsorted1.sublist (List.drop_sublist _ _)
  · exact ((List.drop_sublist _ _).map _).nodup hnodup1

theorem runStores_spec (ops : List (Nat × Nat × StoreInput)) :
    ∀ cache : List CachedResponse,
    cache.Sorted tsLe →
    ((cache.map (fun c => c.id)) ++ ops.map (fun o => o.2.1)).Nodup →
    (∀ c ∈ cache, ∀ o ∈ ops, c.timestamp ≤ o.1) →
    (ops.map (fun o => o.1)).Sorted (· ≤ ·) →
    cache.length ≤ maxEntries →
    (runStores ops cache).length ≤ maxEntries ∧
    runStores ops cache <:+ cache ++ opsEntries ops := by
  induction ops with
  | nil =>
    intro cache h1 h2 h3 h4 h5
    refine ⟨h5, ?_⟩
    simp [runStores, opsEntries]
  | cons op ops ih =>
    obtain ⟨t, i, d⟩ := op
    intro cache h1 h2 h3 h4 h5
    have hfresh : ∀ c ∈ cache, c.id ≠ i := by
      intro c hc he
      rcases List.nodup_append.mp h2 with ⟨-, -, hdisj⟩
      exact hdisj (List.mem_map_of_mem _ hc) (by simp [he])
    have happ_sorted : (cache ++ [mkEntry d i t]).Sorted tsLe := by
      show List.Pairwise tsLe (cache ++ [mkEntry d i t])
      rw [List.pairwise_append]
      refine ⟨h1, by simp, ?_⟩
      intro a ha b hb
      have hb' : b = mkEntry d i t := by simpa using hb
      subst hb'
      exact h3 a ha (t, i, d) (List.mem_cons_self ..)
    have happ_nodup :
        ((cache ++ [mkEntry d i t]).map (fun c => c.id)).Nodup := by
      rw [List.map_append]
      refine List.Nodup.sublist ?_ h2
      refine List.Sublist.append_left ?_ _
      simp [mkEntry]
    obtain ⟨hsfx, hlen, hsort, hnd⟩ :=
      store_step cache t i d happ_sorted happ_nodup hfresh
    have hmem_app : ∀ c ∈ (store t i d cache).2,
        c ∈ cache ++ [mkEntry d i t] :=
      fun c hc => hsfx.sublist.mem hc
    have hih_nodup : ((store t i d cache).2.map (fun c => c.id)
        ++ ops.map (fun o => o.2.1)).Nodup := by
      refine List.Nodup.sublist ?_ h2
      have hs1 : List.Sublist ((store t i d cache).2.map (fun c => c.id))
          ((cache ++ [mkEntry d i t]).map (fun c => c.id)) :=
        hsfx.sublist.map _
      have hstep1 : List.Sublist
          ((store t i d cache).2.map (fun c => c.id)
            ++ ops.map (fun o => o.2.1))
          (((cache ++ [mkEntry d i t]).map (fun c => c.id))
            ++ ops.map (fun o => o.2.1)) :=
        List.Sublist.append_right hs1 _
      have hs2 : (((cache ++ [mkEntry d i t]).map (fun c => c.id))
            ++ ops.map (fun o => o.2.1))
          = cache.map (fun c => c.id)
            ++ ((t, i, d) :: ops).map (fun o => o.2.1) := by
        rw [List.map_append, List.append_assoc]
        rfl
      rw [hs2] at hstep1
      exact hstep1
    have hih_ts : ∀ c ∈ (store t i d cache).2, ∀ o ∈ ops,
        c.timestamp ≤ o.1 := by
      intro c hc o ho
      rcases List.mem_append.mp (hmem_app c hc) with h | h
      · exact h3 c h o (List.mem_cons_of_mem _ ho)
      · have hc' : c = mkEntry d i t := by simpa using h
        subst hc'
        have ht := (List.sorted_cons.mp h4).1
        exact ht o.1 (List.mem_map_of_mem _ ho)
    have hih_sorted : (ops.map (fun o => o.1)).Sorted (· ≤ ·) :=
      (List.sorted_cons.mp h4).2
    obtain ⟨ihlen, ihsfx⟩ :=
      ih (store t i d cache).2 hsort hih_nodup hih_ts hih_sorted hlen
    refine ⟨ihlen, ?_⟩
    have step1 : runStores ((t, i, d) :: ops) cache
        = runStores ops (store t i d cache).2 := rfl
    rw [step1]
    refine ihsfx.trans ?_
    have h6 : (store t i d cache).2 ++ opsEntries ops
        <:+ (cache ++ [mkEntry d i t]) ++ opsEntries ops :=
      suffix_append_right hsfx _
    have h7 : (cache ++ [mkEntry d i t]) ++ opsEntries ops
        = cache ++ opsEntries ((t, i, d) :: ops) := by
      rw [List.append_assoc]
      rfl
    rw [h7] at h6
    exact h6

/-- **C6**: along any sequence of `store` operations (run from the empty
cache, times nondecreasing, generated ids pairwise distinct), after each
store the cache holds at most 100 entries and the retained entries are a
suffix of the sequence of stored entries — i.e. always the most recently
stored ones; `cleanup` first drops over-TTL entries, then drops
oldest-by-timestamp entries until at capacity (`removeOverCapacity`). -/
theorem C6_response_capacity_recency (ops : List (Nat × Nat × StoreInput))
    (htimes : (ops.map (fun o => o.1)).Sorted (· ≤ ·))
    (hids : (ops.map (fun o => o.2.1)).Nodup) :
    ∀ k : Nat,
      (runStores (ops.take k) []).length ≤ maxEntries ∧
      runStores (ops.take k) [] <:+ opsEntries (ops.take k) := by
  intro k
  have h2 : (([] : List CachedResponse).map (fun c => c.id)
      ++ (ops.take k).map (fun o => o.2.1)).Nodup := by
    simp only [List.map_nil, List.nil_append]
    rw [List.map_take]
    exact List.Nodup.sublist (List.take_sublist _ _) hids
  have h4 : ((ops.take k).map (fun o => o.1)).Sorted (· ≤ ·) := by
    rw [List.map_take]
    exact htimes.sublist (List.take_sublist _ _)
  have h3 : ∀ c ∈ ([] : List CachedResponse), ∀ o ∈ ops.take k,
      c.timestamp ≤ o.1 := by
    intro c hc
    cases hc
  obtain ⟨hl, hs⟩ := runStores_spec (ops.take k) [] (by simp) h2 h3 h4
    (by simp [maxEntries])
  refine ⟨hl, ?_⟩
  rw [List.nil_append] at hs
  exact hs

/-- Witness for C5: a concrete store into the empty cache at time 5 with id
7, retrieved immediately and after the TTL has passed. -/
theorem C5_response_store_get_ttl_witness :
    (∀ c ∈ ([] : List CachedResponse), c.id ≠ 7) ∧
    (∀ c ∈ ([] : List CachedResponse), c.timestamp ≤ 5) ∧
    ((store 5 7 sampleInput []).1 = 7 ∧
      (get 5 7 (store 5 7 sampleInput []).2).1 = some (mkEntry sampleInput 7 5) ∧
      (2000000 - 5 > maxAge →
        (get 2000000 7 (store 5 7 sampleInput []).2).1 = none ∧
        ∀ c ∈ (get 2000000 7 (store 5 7 sampleInput []).2).2, c.id ≠ 7)) ∧
    (get 2000000 7 (store 5 7 sampleInput []).2).1 = none :=
  ⟨by simp, by simp,
   C5_response_store_get_ttl [] 5 2000000 7 sampleInput (by simp) (by simp),
   ((C5_response_store_get_ttl [] 5 2000000 7 sampleInput (by simp)
      (by simp)).2.2 (by decide)).1⟩

/-- Witness for C6: 101 concrete stores; after the 101st the cache holds at
most 100 entries and is a suffix of the stored sequence. -/
theorem C6_response_capacity_recency_witness :
    ((manyOps.map (fun o => o.1)).Sorted (· ≤ ·) ∧
      (manyOps.map (fun o => o.2.1)).Nodup) ∧
    ((runStores (manyOps.take 101) []).length ≤ maxEntries ∧
      runStores (manyOps.take 101) [] <:+ opsEntries (manyOps.take 101)) :=
  ⟨⟨by decide, by decide⟩,
   C6_response_capacity_recency manyOps (by decide) (by decide) 101⟩

end ResponseCache

namespace SimulatorCache

/-- **C3**: after a refresh of the device list, a freshly enumerated device
whose udid was present in the previous snapshot appears in the merged
snapshot with its historical fields — `bootHistory`, `performanceMetrics`
and `lastUsed` (falling back to the separate last-used map when the prior
record has none) — copied from the prior snapshot's matching device, while
all base enumeration fields (availability, state, …) come from the fresh
record. -/
theorem C3_refresh_preserves_history (st : SimCacheState) (c : CachedSimulatorList)
    (p : SimulatorInfo) (u : String) (d : SimulatorDevice) (rt : String)
    (ds : List SimulatorDevice) (fresh : SimulatorListData) (now : Nat)
    (hc : st.cache = some c)
    (hprev : findInDeviceLists c.devices u = some p)
    (hd : d.udid = u)
    (hds : (rt, ds) ∈ fresh.devices) (hdd : d ∈ ds) :
    (rt, ds.map (enhanceDevice st)) ∈ (refreshedList st fresh now).devices ∧
    enhanceDevice st d ∈ ds.map (enhanceDevice st) ∧
    (enhanceDevice st d).toSimulatorDevice = d ∧
    (enhanceDevice st d).bootHistory = p.bootHistory ∧
    (enhanceDevice st d).performanceMetrics = p.performanceMetrics ∧
    (enhanceDevice st d).lastUsed =
      (match p.lastUsed with
       | some t => some t
       | none => lookupAssoc st.lastUsed u) := by
  have hfind : findExistingDevice st u = some p := by
    unfold findExistingDevice
    rw [hc]
    exact hprev
  refine ⟨?_, ?_, ?_, ?_, ?_, ?_⟩
  · simpa [refreshedList] using
      List.mem_map_of_mem (fun q => (q.1, q.2.map (enhanceDevice st))) hds
  · exact List.mem_map_of_mem _ hdd
  · simp [enhanceDevice]
  · simp [enhanceDevice, hd, hfind]
  · simp [enhanceDevice, hd, hfind]
  · simp only [enhanceDevice, hd, hfind, Option.bind]

theorem updateFirstInList_of_no_match (ds : List SimulatorInfo)
    (udid : String) (f : SimulatorInfo → SimulatorInfo)
    (h : ds.any (fun x => x.udid == udid) = false) :
    updateFirstInList ds udid f = ds := by
  induction ds with
  | nil => rfl
  | cons a t ih =>
    rw [List.any_cons] at h
    rcases Bool.or_eq_false_iff.mp h with ⟨h1, h2⟩
    rw [updateFirstInList]
    rw [if_neg (by simp [h1])]
    rw [ih h2]

theorem findInDeviceLists_none (lists : List (String × List SimulatorInfo))
    (udid : String) (f : SimulatorInfo → SimulatorInfo)
    (h : findInDeviceLists lists udid = none) :
    updateFirstDevice lists udid f = lists := by
  induction lists with
  | nil => rfl
  | cons q rest ih =>
    obtain ⟨rt, ds⟩ := q
    rw [findInDeviceLists] at h
    cases hf : ds.find? (fun x => x.udid == udid) with
    | some d => rw [hf] at h; cases h
    | none =>
      rw [hf] at h
      have hany : ds.any (fun x => x.udid == udid) = false := by
        rw [List.any_eq_false]
        intro x hx
        have := List.find?_eq_none.mp hf x hx
        simpa using this
      rw [updateFirstDevice, if_neg (by simp [hany]), ih h]

theorem updateFirstInList_find (ds : List SimulatorInfo) (udid : String)
    (f : SimulatorInfo → SimulatorInfo) (d : SimulatorInfo)
    (hf : ∀ x, (f x).udid = x.udid)
    (h : ds.find? (fun x => x.udid == udid) = some d) :
    (updateFirstInList ds udid f).find? (fun x => x.udid == udid)
      = some (f d) := by
  induction ds with
  | nil => simp at h
  | cons a t ih =>
    by_cases ha : (a.udid == udid) = true
    · simp only [List.find?_cons, ha] at h
      injection h with h2
      subst h2
      rw [updateFirstInList, if_pos ha]
      have hfa : ((f a).udid == udid) = true := by
        rw [hf]
        exact ha
      simp only [List.find?_cons, hfa]
    · have ha' : (a.udid == udid) = false := by
        simpa using ha
      simp only [List.find?_cons, ha'] at h
      rw [updateFirstInList, if_neg (by simp [ha'])]
      simp only [List.find?_cons, ha']
      exact ih h

theorem findInDeviceLists_update (lists : List (String × List SimulatorInfo))
    (udid : String) (f : SimulatorInfo → SimulatorInfo) (p : SimulatorInfo)
    (hf : ∀ x, (f x).udid = x.udid)
    (h : findInDeviceLists lists udid = some p) :
    findInDeviceLists (updateFirstDevice lists udid f) udid = some (f p) := by
  induction lists with
  | nil => simp [findInDeviceLists] at h
  | cons q rest ih =>
    obtain ⟨rt, ds⟩ := q
    rw [findInDeviceLists] at h
    cases hfd : ds.find? (fun x => x.udid == udid) with
    | some d =>
      rw [hfd] at h
      injection h with h2
      subst h2
      have hany : ds.any (fun x => x.udid == udid) = true := by
        rw [List.any_eq_true]
        exact ⟨d, List.mem_of_find?_eq_some hfd,
          by simpa using List.find?_some hfd⟩
      rw [updateFirstDevice, if_pos hany, findInDeviceLists,
        updateFirstInList_find ds udid f d hf hfd]
    | none =>
      rw [hfd] at h
      have hany : ds.any (fun x => x.udid == udid) = false := by
        rw [List.any_eq_false]
        intro x hx
        have := List.find?_eq_none.mp hfd x hx
        simpa using this
      rw [updateFirstDevice, if_neg (by simp [hany]), findInDeviceLists, hfd]
      exact ih h

theorem applyBootUpdate_udid (now : Nat) (duration : Option ℚ)
    (d : SimulatorInfo) : (applyBootUpdate now duration d).udid = d.udid := by
  cases duration with
  | none => rfl
  | some q =>
    by_cases hq : q ≠ 0 <;> simp [applyBootUpdate, hq]

theorem applyBootUpdate_bootHistory (now : Nat) (duration : Option ℚ)
    (d : SimulatorInfo) :
    (applyBootUpdate now duration d).bootHistory
      = d.bootHistory ++ [now] := by
  cases duration with
  | none => rfl
  | some q =>
    by_cases hq : q ≠ 0 <;> simp [applyBootUpdate, hq]

theorem applyBootUpdate_lastUsed (now : Nat) (duration : Option ℚ)
    (d : SimulatorInfo) :
    (applyBootUpdate now duration d).lastUsed = d.lastUsed := by
  cases duration with
  | none => rfl
  | some q =>
    by_cases hq : q ≠ 0 <;> simp [applyBootUpdate, hq]

theorem applyBootUpdate_metrics_frame (now : Nat) (duration : Option ℚ)
    (d : SimulatorInfo) (h : duration = none ∨ duration = some 0) :
    (applyBootUpdate now duration d).performanceMetrics
      = d.performanceMetrics := by
  rcases h with h | h <;> subst h
  · rfl
  · simp [applyBootUpdate]

theorem applyBootUpdate_metrics_set (now : Nat) (q : ℚ)
    (d : SimulatorInfo) (hq : q ≠ 0) :
    ((applyBootUpdate now (some q) d).performanceMetrics).isSome = true := by
  simp [applyBootUpdate, hq]

/-- **C10**: `recordBootEvent(id, success=true, duration)` always writes
`booted` into the boot-state map; it touches `bootHistory` and
`performanceMetrics` only when an enumeration snapshot is cached and
contains the id.  With no snapshot, or a snapshot lacking the id, the
*only* state change is the boot-state map entry.  With a cached matching
device, the boot timestamp is appended to that device's `bootHistory`,
`lastUsed` is untouched, and `performanceMetrics` is recomputed exactly
when a non-zero duration is supplied (`undefined` and `0` are falsy under
the source's `if (duration)`). -/
theorem C10_recordBootEvent_frame (st : SimCacheState) (udid : String) (duration : Option ℚ)
    (now : Nat) :
    (st.cache = none →
      recordBootEvent st udid true duration now
        = { st with bootStates := setAssoc st.bootStates udid .booted }) ∧
    (∀ c, st.cache = some c →
      findInDeviceLists c.devices udid = none →
      recordBootEvent st udid true duration now
        = { st with bootStates := setAssoc st.bootStates udid .booted }) ∧
    (∀ c p, st.cache = some c →
      findInDeviceLists c.devices udid = some p →
      (recordBootEvent st udid true duration now).bootStates
          = setAssoc st.bootStates udid .booted ∧
      (recordBootEvent st udid true duration now).preferredByProject
          = st.preferredByProject ∧
      (recordBootEvent st udid true duration now).lastUsed = st.lastUsed ∧
      ∃ c', (recordBootEvent st udid true duration now).cache = some c' ∧
        c'.devices = updateFirstDevice c.devices udid
            (applyBootUpdate now duration) ∧
        findInDeviceLists c'.devices udid
            = some (applyBootUpdate now duration p) ∧
        (applyBootUpdate now duration p).bootHistory
            = p.bootHistory ++ [now] ∧
        (applyBootUpdate now duration p).lastUsed = p.lastUsed ∧
        ((duration = none ∨ duration = some 0) →
          (applyBootUpdate now duration p).performanceMetrics
            = p.performanceMetrics) ∧
        (∀ q : ℚ, duration = some q → q ≠ 0 →
          ((applyBootUpdate now duration p).performanceMetrics).isSome
            = true)) := by
  obtain ⟨cch, ma, bsx, pp, lu⟩ := st
  refine ⟨?_, ?_, ?_⟩
  · intro h
    simp only at h
    subst h
    rfl
  · intro c hc hnone
    simp only at hc
    subst hc
    have hupd := findInDeviceLists_none c.devices udid
      (applyBootUpdate now duration) hnone
    show SimCacheState.mk (some (CachedSimulatorList.mk (updateFirstDevice c.devices udid (applyBootUpdate now duration)) c.runtimes c.devicetypes c.lastUpdated)) ma (setAssoc bsx udid .booted) pp lu = SimCacheState.mk (some c) ma (setAssoc bsx udid .booted) pp lu
    rw [hupd]
  · intro c p hc hp
    simp only at hc
    subst hc
    refine ⟨rfl, rfl, rfl, ⟨_, rfl, rfl, ?_, ?_, ?_, ?_, ?_⟩⟩
    · exact findInDeviceLists_update c.devices udid _ p
        (applyBootUpdate_udid now duration) hp
    · exact applyBootUpdate_bootHistory now duration p
    · exact applyBootUpdate_lastUsed now duration p
    · exact applyBootUpdate_metrics_frame now duration p
    · intro q hq hq0
      subst hq
      exact applyBootUpdate_metrics_set now q p hq0







theorem fromProjectPreference_spec (st : SimCacheState)
    (list : CachedSimulatorList) (projectPath : Option String)
    (pref : SimulatorInfo)
    (h : fromProjectPreference st list projectPath = some pref) :
    pref.isAvailable = true ∧
    ∃ p udid, projectPath = some p ∧
      lookupAssoc st.preferredByProject p = some udid ∧
      findInDeviceLists list.devices udid = some pref := by
  unfold fromProjectPreference at h
  cases projectPath with
  | none => cases h
  | some p =>
    dsimp only at h
    cases hl : lookupAssoc st.preferredByProject p with
    | none =>
      simp only [hl] at h
      cases h
    | some udid =>
      rw [hl] at h
      dsimp only at h
      cases hfd : findInDeviceLists list.devices udid with
      | none =>
        simp only [hfd] at h
        cases h
      | some preferred =>
        rw [hfd] at h
        dsimp only at h
        by_cases hav : preferred.isAvailable = true
        · rw [if_pos hav] at h
          injection h with h2
          subst h2
          exact ⟨hav, p, udid, rfl, hl, hfd⟩
        · rw [if_neg hav] at h
          cases h

/-- **C8** (counterexample): the claim requires the pinned device to match
the type filter before being returned; the code never consults the filter
on the pinned branch.  Concretely: the project pin names an available iPad,
the type filter is "iPhone"; `getPreferredSimulator` returns the iPad even
though its name does not match the filter, while the claim says the head of
`getAvailableSimulators` (the iPhone) should be returned. -/
theorem C8_counterexample_pinned_ignores_filter :
    getPreferredSimulator pinnedState pinnedList (some "/proj/App.xcodeproj")
        (some "iPhone") = some ipadInfo ∧
    nameMatches (some "iPhone") ipadInfo = false ∧
    (getAvailableSimulators pinnedList (some "iPhone") none).head?
        = some iphoneInfo ∧
    ipadInfo ≠ iphoneInfo := by
  refine ⟨?_, ?_, ?_, ?_⟩ <;> decide

/-- **C8** (amended): if a project-specific pinned device exists in the
snapshot and is still available, it is returned **regardless of the type
filter**; otherwise the head of `getAvailableSimulators` — the available
devices matching the filter, sorted by `lastUsed` descending then name
ascending (proved `Sorted` and a permutation of the filtered gather) — is
returned; when that list is empty the result is `none`. -/
theorem C8_preferred_device_amended (st : SimCacheState) (list : CachedSimulatorList)
    (projectPath deviceType : Option String) :
    (∀ pref, fromProjectPreference st list projectPath = some pref →
      getPreferredSimulator st list projectPath deviceType = some pref ∧
      pref.isAvailable = true ∧
      (∃ p udid, projectPath = some p ∧
        lookupAssoc st.preferredByProject p = some udid ∧
        findInDeviceLists list.devices udid = some pref)) ∧
    (fromProjectPreference st list projectPath = none →
      getPreferredSimulator st list projectPath deviceType
        = (getAvailableSimulators list deviceType none).head?) ∧
    (∀ d ∈ getAvailableSimulators list deviceType none,
      d.isAvailable = true ∧ nameMatches deviceType d = true) ∧
    (getAvailableSimulators list deviceType none).Sorted prefRel ∧
    List.Perm (getAvailableSimulators list deviceType none)
      (gatherAvailable list deviceType none) := by
  refine ⟨?_, ?_, ?_, ?_, ?_⟩
  · intro pref h
    obtain ⟨hav, hex⟩ := fromProjectPreference_spec st list projectPath pref h
    exact ⟨by simp [getPreferredSimulator, h], hav, hex⟩
  · intro h
    simp [getPreferredSimulator, h]
  · intro d hd
    have hd2 : d ∈ gatherAvailable list deviceType none :=
      (List.mem_insertionSort prefRel).mp hd
    unfold gatherAvailable at hd2
    obtain ⟨q, hq, hdq⟩ := List.mem_flatMap.mp hd2
    have hf := (List.mem_filter.mp hdq).2
    unfold availFilter at hf
    exact ⟨(Bool.and_eq_true .. |>.mp hf).1, (Bool.and_eq_true .. |>.mp hf).2⟩
  · exact List.sorted_insertionSort prefRel _
  · exact List.perm_insertionSort prefRel _

/-- Witness for C3: the freshly enumerated iPad keeps the boot history of
its prior record. -/
theorem C3_refresh_preserves_history_witness :
    (pinnedState.cache = some pinnedList ∧
      findInDeviceLists pinnedList.devices "UDID-IPAD" = some ipadInfo ∧
      ipadFreshDevice.udid = "UDID-IPAD" ∧
      ("iOS 17", [ipadFreshDevice]) ∈ freshEnumeration.devices ∧
      ipadFreshDevice ∈ [ipadFreshDevice]) ∧
    ((enhanceDevice pinnedState ipadFreshDevice).toSimulatorDevice
        = ipadFreshDevice ∧
      (enhanceDevice pinnedState ipadFreshDevice).bootHistory
        = ipadInfo.bootHistory) :=
  ⟨⟨rfl, by decide, rfl, by decide, by decide⟩,
   (C3_refresh_preserves_history pinnedState pinnedList ipadInfo "UDID-IPAD"
      ipadFreshDevice "iOS 17" [ipadFreshDevice] freshEnumeration 123 rfl
      (by decide) rfl (by decide) (by decide)).2.2.1,
   (C3_refresh_preserves_history pinnedState pinnedList ipadInfo "UDID-IPAD"
      ipadFreshDevice "iOS 17" [ipadFreshDevice] freshEnumeration 123 rfl
      (by decide) rfl (by decide) (by decide)).2.2.2.1⟩

/-- Witness for C10: a boot event with no cached snapshot only touches the
boot-state map; one with a cached matching device updates the boot-state
map as described. -/
theorem C10_recordBootEvent_frame_witness :
    (emptySimState.cache = none ∧
      pinnedState.cache = some pinnedList ∧
      findInDeviceLists pinnedList.devices "UDID-IPAD" = some ipadInfo) ∧
    (recordBootEvent emptySimState "U" true (some 3) 77
        = { emptySimState with
            bootStates := setAssoc emptySimState.bootStates "U" .booted } ∧
      (recordBootEvent pinnedState "UDID-IPAD" true (some 3) 77).bootStates
        = setAssoc pinnedState.bootStates "UDID-IPAD" .booted) :=
  ⟨⟨rfl, rfl, by decide⟩,
   (C10_recordBootEvent_frame emptySimState "U" (some 3) 77).1 rfl,
   ((C10_recordBootEvent_frame pinnedState "UDID-IPAD" (some 3) 77).2.2
      pinnedList ipadInfo rfl (by decide)).1⟩

/-- Witness for C8 (amended): the pinned available iPad is returned in the
presence of a non-matching type filter. -/
theorem C8_preferred_device_amended_witness :
    (fromProjectPreference pinnedState pinnedList
        (some "/proj/App.xcodeproj") = some ipadInfo) ∧
    (getPreferredSimulator pinnedState pinnedList
        (some "/proj/App.xcodeproj") (some "iPhone") = some ipadInfo ∧
      ipadInfo.isAvailable = true) :=
  ⟨by decide,
   ((C8_preferred_device_amended pinnedState pinnedList
      (some "/proj/App.xcodeproj") (some "iPhone")).1 ipadInfo (by decide)).1,
   ((C8_preferred_device_amended pinnedState pinnedList
      (some "/proj/App.xcodeproj") (some "iPhone")).1 ipadInfo (by decide)).2.1⟩

end SimulatorCache
namespace ProjectCache

/-- **C7**: `buildTimeImprovement` is `none` when fewer than 6 successful
builds with recorded durations are retained; otherwise it equals
`(meanOfPriorThree - meanOfRecentThree) / meanOfPriorThree * 100`, where
the recent three are the first three and the prior three the next three of
the successful durations ordered most recent first (`getBuildHistory`
returns most recent first). -/
theorem C7_build_time_improvement (st : ProjCacheState) (p : String) :
    (Nat.lt (successfulDurations (getBuildHistory st p 20)).length 6 →
      (getPerformanceTrends st p).buildTimeImprovement = none) ∧
    (6 ≤ (successfulDurations (getBuildHistory st p 20)).length →
      (getPerformanceTrends st p).buildTimeImprovement
        = some ((mean (((successfulDurations (getBuildHistory st p 20)).drop 3).take 3)
              - mean ((successfulDurations (getBuildHistory st p 20)).take 3))
            / mean (((successfulDurations (getBuildHistory st p 20)).drop 3).take 3)
            * 100)) := by
  constructor
  · intro hlt
    unfold getPerformanceTrends
    by_cases he : (getBuildHistory st p 20).isEmpty
    · rw [if_pos he]
    · rw [if_neg he]
      dsimp only
      rw [if_neg]
      intro hge
      exact absurd hge (Nat.not_le.mpr hlt)
  · intro hge
    have hge' : ((((getBuildHistory st p 20).filter (fun h => h.success)).filterMap
        (fun h => h.duration)).length) ≥ 6 := hge
    unfold getPerformanceTrends
    by_cases he : (getBuildHistory st p 20).isEmpty
    · exfalso
      have h0 : getBuildHistory st p 20 = [] := List.isEmpty_iff.mp he
      rw [successfulDurations, h0] at hge
      simp at hge
    · rw [if_neg he]
      dsimp only
      rw [if_pos hge']
      have h3 : ((((getBuildHistory st p 20).filter (fun h => h.success)).filterMap
          (fun h => h.duration)).take 3).length = 3 := by
        rw [List.length_take]
        omega
      have h6 : (((((getBuildHistory st p 20).filter (fun h => h.success)).filterMap
          (fun h => h.duration)).drop 3).take 3).length = 3 := by
        rw [List.length_take, List.length_drop]
        omega
      unfold mean successfulDurations
      rw [h3, h6]

theorem find_append_of_all_false {β : Type} (m : List (String × β))
    (k : String) (v : β) (hall : ∀ q ∈ m, (q.1 == k) = false) :
    (m ++ [(k, v)]).find? (fun p => p.1 == k) = some (k, v) := by
  induction m with
  | nil => simp
  | cons a t ih =>
    rw [List.cons_append]
    simp only [List.find?_cons, hall a (List.mem_cons_self ..)]
    exact ih (fun q hq => hall q (List.mem_cons_of_mem _ hq))

theorem find_map_set {β : Type} (m : List (String × β)) (k : String) (v : β)
    (h : m.any (fun p => p.1 == k) = true) :
    (m.map (fun p => if (p.1 == k) = true then (k, v) else p)).find?
      (fun p => p.1 == k) = some (k, v) := by
  induction m with
  | nil => simp at h
  | cons a t ih =>
    rw [List.any_cons] at h
    by_cases ha : (a.1 == k) = true
    · simp only [List.map_cons, if_pos ha, List.find?_cons, beq_self_eq_true]
    · have ha' : (a.1 == k) = false := by simpa using ha
      have ht : t.any (fun p => p.1 == k) = true := by
        rcases Bool.or_eq_true_iff.mp h with h1 | h1
        · exact absurd h1 ha
        · exact h1
      simp only [List.map_cons, ha', Bool.false_eq_true, if_false,
        List.find?_cons]
      exact ih ht

theorem lookupAssoc_setAssoc_self {β : Type} (m : List (String × β))
    (k : String) (v : β) :
    lookupAssoc (setAssoc m k v) k = some v := by
  unfold setAssoc lookupAssoc
  by_cases h : m.any (fun p => p.1 == k) = true
  · rw [if_pos h, find_map_set m k v h]
    rfl
  · rw [if_neg h]
    have hall : ∀ q ∈ m, (q.1 == k) = false := by
      intro q hq
      by_contra hc
      exact h (List.any_eq_true.mpr ⟨q, hq, by simpa using hc⟩)
    rw [find_append_of_all_false m k v hall]
    rfl

theorem recordBuildResult_fail_configs (st : ProjCacheState) (p : String)
    (cfg : BuildConfig) (m : BuildMetricsInput) (hm : m.success = false) :
    (recordBuildResult st p cfg m).projectConfigs = st.projectConfigs := by
  unfold recordBuildResult
  simp [hm]

theorem recordBuildResult_success_config (st : ProjCacheState) (p : String)
    (cfg : BuildConfig) (m : BuildMetricsInput) (e : ProjectInfo)
    (hm : m.success = true)
    (hcached : lookupAssoc st.projectConfigs (normalizePath p) = some e) :
    lookupAssoc (recordBuildResult st p cfg m).projectConfigs
        (normalizePath p)
      = some (promoteConfig e cfg) := by
  unfold recordBuildResult promoteConfig
  simp only [hm, if_true]
  rw [hcached]
  exact lookupAssoc_setAssoc_self _ _ _

theorem getProjectInfo_carries (st : ProjCacheState)
    (statOf : String → Except String Nat)
    (listOf : String → Except String XcodeProject)
    (p : String) (e : ProjectInfo)
    (hcached : lookupAssoc st.projectConfigs (normalizePath p) = some e) :
    ∀ pinfo2 st3,
      getProjectInfo st statOf listOf p false = .ok (pinfo2, st3) →
      pinfo2.lastSuccessfulConfig = e.lastSuccessfulConfig := by
  intro pinfo2 st3 h
  unfold getProjectInfo at h
  rw [hcached] at h
  dsimp only at h
  by_cases hv : isProjectCacheValid statOf e = true
  · rw [if_pos (by simp [hv])] at h
    injection h with heq
    injection heq with h3 h4
    rw [← h3]
  · rw [if_neg (by simp [hv])] at h
    unfold fetchProjectInfo at h
    cases hs : statOf p with
    | error er => rw [hs] at h; cases h
    | ok mtime =>
      rw [hs] at h
      dsimp only at h
      cases hl : listOf p with
      | error er => rw [hl] at h; cases h
      | ok pd =>
        rw [hl] at h
        dsimp only at h
        injection h with heq
        injection heq with h3 h4
        rw [← h3]
        dsimp only
        rw [hcached]
        rfl

/-- **C4** (counterexample): with an empty cache, record a *successful*
build of `cfgA` for `/p`, then a failed build of `cfgB`; because
`recordBuildResult` promotes `lastSuccessfulConfig` only when a
`ProjectInfo` entry is already cached for the path — and none is —
`getPreferredBuildConfig` then returns the derived default
`{scheme:"App", configuration:"Debug"}` rather than `cfgA`, falsifying the
claim's scenario as stated. -/
theorem C4_counterexample_unfetched_project :
    (Except.map (fun r => r.1)
      (getPreferredBuildConfig
        (recordBuildResult (recordBuildResult emptyProjState "/p" cfgA
          metricsOk) "/p" cfgB metricsFail)
        statOracle listOracle "/p"))
      = Except.ok (some { scheme := "App", configuration := "Debug" }) ∧
    (some cfgA
      ≠ some ({ scheme := "App", configuration := "Debug" } : BuildConfig)) :=
  ⟨rfl, by decide⟩

/-- **C4** (amended): *provided the project has a cached `ProjectInfo`
entry when the successful result is recorded*, `getPreferredBuildConfig`
returns the config most recently recorded with `success=true` — in
particular the claim's record-success-then-record-failure scenario yields
`cA` whenever the surrounding `getProjectInfo` call succeeds.  Absent any
recorded successful config, the result is the derived default: the scheme
equal to the (truthy) project/workspace name when it is among the declared
schemes, else the first declared scheme, with configuration `Debug`; and
`none` when no schemes are declared. -/
theorem C4_preferred_config_amended (st : ProjCacheState)
    (statOf : String → Except String Nat)
    (listOf : String → Except String XcodeProject)
    (p : String) (pinfo : ProjectInfo) (cA cB : BuildConfig)
    (mOk mFail : BuildMetricsInput)
    (hcached : lookupAssoc st.projectConfigs (normalizePath p) = some pinfo)
    (hOk : mOk.success = true) (hFail : mFail.success = false) :
    (∀ r st3,
      getPreferredBuildConfig
        (recordBuildResult (recordBuildResult st p cA mOk) p cB
          mFail)
        statOf listOf p = .ok (r, st3) →
      r = some cA) ∧
    (∀ pd : XcodeProject, schemesOf pd = [] → defaultBuildConfig pd = none) ∧
    (∀ (pd : XcodeProject) (s0 : String) (rest : List String),
      schemesOf pd = s0 :: rest →
      (∀ n, projectNameOf pd = some n → n ≠ "" →
        (s0 :: rest).contains n = true →
        defaultBuildConfig pd
          = some { scheme := n, configuration := "Debug" }) ∧
      ((∀ n, projectNameOf pd = some n →
          n = "" ∨ (s0 :: rest).contains n = false) →
        defaultBuildConfig pd
          = some { scheme := s0, configuration := "Debug" })) ∧
    (∀ pinfo2 st3,
      getProjectInfo st statOf listOf p false = .ok (pinfo2, st3) →
      pinfo2.lastSuccessfulConfig = none →
      getPreferredBuildConfig st statOf listOf p
        = .ok (defaultBuildConfig pinfo2.projectData, st3)) := by
  refine ⟨?_, ?_, ?_, ?_⟩
  · intro r st3 h
    have h1 := recordBuildResult_success_config st p cA mOk pinfo
      hOk hcached
    have h2 : (recordBuildResult (recordBuildResult st p cA mOk) p
        cB mFail).projectConfigs
        = (recordBuildResult st p cA mOk).projectConfigs :=
      recordBuildResult_fail_configs _ p cB mFail hFail
    have hlook : lookupAssoc
        (recordBuildResult (recordBuildResult st p cA mOk) p cB
          mFail).projectConfigs (normalizePath p)
        = some (promoteConfig pinfo cA) := by
      rw [h2]
      exact h1
    unfold getPreferredBuildConfig at h
    cases hg : getProjectInfo
        (recordBuildResult (recordBuildResult st p cA mOk) p cB
          mFail) statOf listOf p false with
    | error er => rw [hg] at h; cases h
    | ok pr =>
      obtain ⟨pinfo2, st4⟩ := pr
      rw [hg] at h
      dsimp only at h
      have hlast : pinfo2.lastSuccessfulConfig = some cA := by
        have hcarry := getProjectInfo_carries _ statOf listOf p _ hlook
          pinfo2 st4 hg
        rw [hcarry]
        rfl
      rw [hlast] at h
      dsimp only at h
      injection h with heq
      injection heq with h3 h4
      exact h3.symm
  · intro pd hempty
    unfold defaultBuildConfig
    rw [hempty]
  · intro pd s0 rest hschemes
    constructor
    · intro n hn hne hmem
      unfold defaultBuildConfig
      rw [hschemes]
      dsimp only
      rw [hn]
      dsimp only
      rw [if_pos ⟨hne, by simpa using hmem⟩]
    · intro hno
      unfold defaultBuildConfig
      rw [hschemes]
      dsimp only
      cases hn : projectNameOf pd with
      | none => rfl
      | some n =>
        dsimp only
        rw [if_neg]
        rintro ⟨hne, hmem⟩
        rcases hno n hn with hcase | hcase
        · exact hne hcase
        · rw [hcase] at hmem
          cases hmem
  · intro pinfo2 st3 hg hnone
    unfold getPreferredBuildConfig
    rw [hg]
    dsimp only
    rw [hnone]

/-- Witness for C7: six successful durations `[6,5,4,30,20,10]` (most
recent first) give an improvement of `(20 - 5) / 20 * 100`. -/
theorem C7_build_time_improvement_witness :
    (6 ≤ (successfulDurations (getBuildHistory trendState "/p" 20)).length) ∧
    (getPerformanceTrends trendState "/p").buildTimeImprovement
      = some ((mean (((successfulDurations (getBuildHistory trendState "/p"
              20)).drop 3).take 3)
            - mean ((successfulDurations (getBuildHistory trendState "/p"
              20)).take 3))
          / mean (((successfulDurations (getBuildHistory trendState "/p"
              20)).drop 3).take 3)
          * 100) :=
  ⟨by decide,
   (C7_build_time_improvement trendState "/p").2 (by decide)⟩

/-- Witness for C4 (amended): with `/p` cached, the empty-schemes and
name-in-schemes halves of the default derivation, applied concretely. -/
theorem C4_preferred_config_amended_witness :
    (lookupAssoc cachedProjState.projectConfigs (normalizePath "/p")
        = some basePinfo ∧
      metricsOk.success = true ∧ metricsFail.success = false) ∧
    (defaultBuildConfig { project := none, workspace := none } = none ∧
      defaultBuildConfig appProject
        = some { scheme := "App", configuration := "Debug" }) :=
  ⟨⟨by decide, rfl, rfl⟩,
   (C4_preferred_config_amended cachedProjState statOracle listOracle "/p"
      basePinfo cfgA cfgB metricsOk metricsFail (by decide) rfl rfl).2.1
      { project := none, workspace := none } rfl,
   ((C4_preferred_config_amended cachedProjState statOracle listOracle "/p"
      basePinfo cfgA cfgB metricsOk metricsFail (by decide) rfl rfl).2.2.1
      appProject "App" ["AppTests"] rfl).1 "App" rfl (by decide)
      (by decide)⟩

end ProjectCache
namespace PersistenceManager

theorem find_first_true {α : Type} {p : α → Bool} :
    ∀ (l₁ : List α) (d : α) (l₂ : List α),
      (∀ c ∈ l₁, p c = false) → p d = true →
      (l₁ ++ d :: l₂).find? p = some d := by
  intro l₁
  induction l₁ with
  | nil =>
    intro d l₂ _ hd
    simp [List.find?_cons, hd]
  | cons a t ih =>
    intro d l₂ hall hd
    rw [List.cons_append]
    simp only [List.find?_cons, hall a (List.mem_cons_self ..)]
    exact ih d l₂ (fun c hc => hall c (List.mem_cons_of_mem _ hc)) hd

/-- **C9** (counterexample): calling `enable()` with a non-writable
explicit directory does **not** return `{success:false}`: the unwritable
argument falls through to the next writable candidate in the chain (here
the home cache directory), which is adopted, so `enable` succeeds and the
manager ends up enabled. -/
theorem C9_counterexample_fallthrough :
    (c9env.writable "/custom" = false) ∧
    ((enable ⟨false, none⟩ c9env (some "/custom")).1.success = true) ∧
    ((enable ⟨false, none⟩ c9env (some "/custom")).2.enabled = true) ∧
    ((enable ⟨false, none⟩ c9env (some "/custom")).1.cacheDir
      = "/home/u/.cache/xc-mcp") := by
  refine ⟨?_, ?_, ?_, ?_⟩ <;> decide

/-- **C9** (amended): directory resolution tries the candidates in order —
explicit argument, environment variable, XDG cache root, project-local
dot-directory, home cache, home dot-directory, temp — each validated by the
writability probe, adopting the *first* writable candidate (first
conjunct); `enable` returns `{success:false}` with a message and leaves
the manager state unchanged (so `isEnabled()` stays false) exactly when
**no** candidate is writable (second conjunct); a non-empty explicit
argument always heads the candidate list (third conjunct). -/
theorem C9_enable_amended (pm : PMState) (env : EnableEnv)
    (userCacheDir : Option String) :
    (∀ l₁ d l₂, candidates env userCacheDir = l₁ ++ d :: l₂ →
      (∀ c ∈ l₁, env.writable c = false) → env.writable d = true →
      determineStorageLocation env userCacheDir = .ok d ∧
      (env.postSetupOk = true →
        (enable pm env userCacheDir).1.success = true ∧
        (enable pm env userCacheDir).2 = ⟨true, some d⟩ ∧
        (enable pm env userCacheDir).1.cacheDir = d)) ∧
    ((∀ c ∈ candidates env userCacheDir, env.writable c = false) →
      env.writable (joinPath env.tmp "xc-mcp") = false →
      (enable pm env userCacheDir).1.success = false ∧
      (enable pm env userCacheDir).1.message ≠ none ∧
      (enable pm env userCacheDir).2 = pm) ∧
    (∀ u, userCacheDir = some u → u ≠ "" →
      (candidates env userCacheDir).head? = some u) := by
  refine ⟨?_, ?_, ?_⟩
  · intro l₁ d l₂ hsplit hall hd
    have hdet : determineStorageLocation env userCacheDir = .ok d := by
      unfold determineStorageLocation
      rw [hsplit, find_first_true l₁ d l₂ hall hd]
    refine ⟨hdet, ?_⟩
    intro hpost
    unfold enable
    rw [hdet]
    dsimp only
    refine ⟨?_, ?_, ?_⟩ <;> simp [hd, hpost]
  · intro hall hfb
    have hnone : (candidates env userCacheDir).find? env.writable = none :=
      List.find?_eq_none.mpr (fun c hc => by simp [hall c hc])
    unfold enable determineStorageLocation
    rw [hnone]
    dsimp only
    cases hmk : env.mkdirTmpOk with
    | true =>
      refine ⟨?_, ?_, ?_⟩ <;> simp [hfb]
    | false =>
      refine ⟨?_, ?_, ?_⟩ <;> simp
  · intro u hu hne
    subst hu
    unfold candidates
    rw [List.filterMap_cons]
    dsimp only [id]
    rw [List.filter_cons]
    rw [if_pos (by simpa using hne)]
    rfl

/-- Witness for C9 (amended): under `c9env` the third candidate is the
first writable one and is adopted; under `c9envNone` nothing is writable
and `enable` fails leaving the state untouched. -/
theorem C9_enable_amended_witness :
    (candidates c9env (some "/custom")
        = ["/custom", "/work/.xc-mcp"]
          ++ "/home/u/.cache/xc-mcp" :: ["/home/u/.xc-mcp", "/tmp/xc-mcp"] ∧
      (∀ c ∈ ["/custom", "/work/.xc-mcp"], c9env.writable c = false) ∧
      c9env.writable "/home/u/.cache/xc-mcp" = true ∧
      c9env.postSetupOk = true ∧
      (∀ c ∈ candidates c9envNone (some "/custom"),
        c9envNone.writable c = false) ∧
      c9envNone.writable (joinPath c9envNone.tmp "xc-mcp") = false) ∧
    (determineStorageLocation c9env (some "/custom")
        = .ok "/home/u/.cache/xc-mcp" ∧
      (enable ⟨false, none⟩ c9env (some "/custom")).1.success = true ∧
      (enable ⟨false, none⟩ c9envNone (some "/custom")).1.success = false ∧
      (enable ⟨false, none⟩ c9envNone (some "/custom")).2
        = (⟨false, none⟩ : PMState)) :=
  ⟨⟨by decide, by decide, by decide, rfl, by decide, by decide⟩,
   (C9_enable_amended ⟨false, none⟩ c9env (some "/custom")).1
      ["/custom", "/work/.xc-mcp"] "/home/u/.cache/xc-mcp"
      ["/home/u/.xc-mcp", "/tmp/xc-mcp"] (by decide) (by decide)
      (by decide) |>.1,
   ((C9_enable_amended ⟨false, none⟩ c9env (some "/custom")).1
      ["/custom", "/work/.xc-mcp"] "/home/u/.cache/xc-mcp"
      ["/home/u/.xc-mcp", "/tmp/xc-mcp"] (by decide) (by decide)
      (by decide) |>.2 rfl).1,
   ((C9_enable_amended ⟨false, none⟩ c9envNone (some "/custom")).2.1 (by decide)
      (by decide)).1,
   ((C9_enable_amended ⟨false, none⟩ c9envNone (some "/custom")).2.1 (by decide)
      (by decide)).2.2⟩

end PersistenceManager
end XcMcp
